import Mathlib

/-!
# ComputeBridge: the texture-type rewriting pass

A shallow embedding of `src/cbpp/src/TextureTransform.cpp`.

Pointers are indices into a heap (a list); the null pointer is `none`.
Dereferencing a null or dangling pointer, a failed `assert` and the
dereference of `end()` have no defined result: the embedded function
returns `none` there.  `cmpU32` values are natural numbers below `2 ^ 32`.
A token freed by `cmpToken_Destroy` stays in the heap and is entered in a
list of destroyed tokens; dereferencing it has no defined result either.
The destructor `~TextureType` and the pass with the destruction it causes
are `TextureType.destructor` and `TextureTransform.Apply.destroying`; the
definitions `TextureTransform.Apply.declare` and `TextureTransform.Apply`
are the pass with every token kept alive.
-/

namespace ComputeBridge

/-! ## Data model -/

/-- Largest value of a `cmpU32`. -/
def UINT_MAX : Nat := 4294967295

/-- Token kinds used by the pass (`enum cmpTokenType`). -/
inductive cmpTokenType where
  | Symbol
  | Number
  | LAngle
  | RAngle
  | LBracket
  | RBracket
  | Comma
  | SemiColon
  | Other
deriving DecidableEq, Repr

/-- Node kinds used by the pass (`enum cmpNodeType`). -/
inductive cmpNodeType where
  | Statement
  | FunctionParams
  | Typedef
  | FunctionDefn
  | FunctionDecl
  | UserTokens
  | Other
deriving DecidableEq, Repr

/-- A lexical token: `start`/`length` are kept as the text they span,
`prev`/`next` are pointers into the token heap. -/
structure cmpToken where
  type : cmpTokenType
  text : String
  hash : Nat
  line : Nat
  prev : Option Nat
  next : Option Nat
deriving DecidableEq, Repr

/-- An AST node: `parent` is a pointer into the node heap, `first_token`
and `last_token` are pointers into the token heap. -/
structure cmpNode where
  type : cmpNodeType
  parent : Option Nat
  first_token : Option Nat
  last_token : Option Nat
deriving DecidableEq, Repr

/-- Reference to a texture type in the source file (`struct TextureRef`). -/
structure TextureRef where
  node : Option Nat
  line : Nat
  keyword_token : Option Nat
  type_token : Option Nat
  nb_type_tokens : Nat
  end_of_type_token : Option Nat
  name_token : Option Nat
deriving DecidableEq, Repr

/-- All texture references that share one key (`TextureRefs`). -/
abbrev TextureRefs := List TextureRef

/-! ## FindFirstTextureRef -/

/-- The loop of `FindFirstTextureRef` from index `i` on: the state is the
pair `(found_ref, first_line)`; `found_ref` is kept as an index. -/
def FindFirstTextureRef.loop : List TextureRef → Nat → Option Nat → Nat → Option Nat × Nat
  | [], _, found_ref, first_line => (found_ref, first_line)
  | ref :: rest, i, found_ref, first_line =>
    if ref.line < first_line then
      FindFirstTextureRef.loop rest (i + 1) (some i) ref.line
    else
      FindFirstTextureRef.loop rest (i + 1) found_ref first_line

/-- Index chosen by `FindFirstTextureRef`; `none` is the failed
`assert(found_ref != 0)`. -/
def FindFirstTextureRef.index (refs : TextureRefs) : Option Nat :=
  (FindFirstTextureRef.loop refs 0 none UINT_MAX).1

/-- `FindFirstTextureRef`: the reference the selected index points at. -/
def FindFirstTextureRef (refs : TextureRefs) : Option TextureRef :=
  (FindFirstTextureRef.index refs).bind (fun i => refs[i]?)


/-! ## Keywords and hashing -/

/-- Compile-time keyword (`struct Keyword`): text, length and hash. -/
structure Keyword where
  text : String
  length : Nat
  hash : Nat
deriving DecidableEq, Repr

/-- Constructor `Keyword(const char* text)`.  The hash function `cmpHash`
of the parser library is a parameter of the embedding. -/
def Keyword.ofText (cmpHash : String → Nat) (text : String) : Keyword :=
  { text := text, length := text.length, hash := cmpHash text }

section Keywords
variable (cmpHash : String → Nat)

def KEYWORD_Texture3Du : Keyword := Keyword.ofText cmpHash "Texture3Du"
def KEYWORD_Texture3Dn : Keyword := Keyword.ofText cmpHash "Texture3Dn"
def KEYWORD_Texture2Du : Keyword := Keyword.ofText cmpHash "Texture2Du"
def KEYWORD_Texture2Dn : Keyword := Keyword.ofText cmpHash "Texture2Dn"
def KEYWORD_Texture1Du : Keyword := Keyword.ofText cmpHash "Texture1Du"
def KEYWORD_Texture1Dn : Keyword := Keyword.ofText cmpHash "Texture1Dn"

def KEYWORD_char : Keyword := Keyword.ofText cmpHash "char"
def KEYWORD_short : Keyword := Keyword.ofText cmpHash "short"
def KEYWORD_int : Keyword := Keyword.ofText cmpHash "int"
def KEYWORD_long : Keyword := Keyword.ofText cmpHash "long"
def KEYWORD_float : Keyword := Keyword.ofText cmpHash "float"
def KEYWORD_signed : Keyword := Keyword.ofText cmpHash "signed"
def KEYWORD_unsigned : Keyword := Keyword.ofText cmpHash "unsigned"

def KEYWORD_cmp_texture_type : Keyword := Keyword.ofText cmpHash "cmp_texture_type"

def KEYWORD_1 : Keyword := Keyword.ofText cmpHash "1"
def KEYWORD_2 : Keyword := Keyword.ofText cmpHash "2"
def KEYWORD_3 : Keyword := Keyword.ofText cmpHash "3"

def KEYWORD_cudaReadModeElementType : Keyword :=
  Keyword.ofText cmpHash "cudaReadModeElementType"
def KEYWORD_cudaReadModeNormalizedFloat : Keyword :=
  Keyword.ofText cmpHash "cudaReadModeNormalizedFloat"

end Keywords

/-- `CombineHash`: all arithmetic is on `cmpU32`, that is modulo `2 ^ 32`. -/
def CombineHash (combined_hash hash : Nat) : Nat :=
  combined_hash ^^^
    ((hash + 0x9E3779B9 + (combined_hash <<< 6) + (combined_hash >>> 2)) % 2 ^ 32)

/-! ## Errors -/

/-- One argument of a `printf`-style error text. -/
inductive cmpArg where
  | str (s : String)
  | num (n : Nat)
deriving DecidableEq, Repr

/-- Modelled from the spec: `cmpError`, a single result type that is either
OK or carries a message.  The message is kept as the format string and the
arguments the caller passed to `cmpError_Create`. -/
inductive cmpError where
  | OK
  | Create (format : String) (args : List cmpArg)
deriving DecidableEq, Repr

/-- Modelled from the spec: `cmpError_OK`, true for the OK result. -/
def cmpError_OK (e : cmpError) : Bool :=
  match e with
  | cmpError.OK => true
  | cmpError.Create _ _ => false

/-! ## The processor: token heap, node heap, visiting order -/

/-- The part of `ComputeProcessor` the pass uses: the file name, the heap
of tokens, the heap of nodes, and the order in which `VisitNodes` hands the
nodes to a visitor (a pre-order walk of the tree). -/
structure ComputeProcessor where
  filename : String
  tokens : List cmpToken
  nodes : List cmpNode
  order : List Nat
deriving DecidableEq, Repr

/-- Dereference of a token pointer: `none` for the null pointer and for a
pointer outside the heap. -/
def tokenAt (tokens : List cmpToken) (p : Option Nat) : Option cmpToken :=
  match p with
  | none => none
  | some i => tokens[i]?

/-- Assignment `p->next = v`. -/
def setNext (tokens : List cmpToken) (p : Option Nat) (v : Option Nat) :
    Option (List cmpToken) :=
  match p with
  | none => none
  | some i =>
    match tokens[i]? with
    | none => none
    | some t => some (tokens.set i { t with next := v })

/-- Assignment `p->prev = v`. -/
def setPrev (tokens : List cmpToken) (p : Option Nat) (v : Option Nat) :
    Option (List cmpToken) :=
  match p with
  | none => none
  | some i =>
    match tokens[i]? with
    | none => none
    | some t => some (tokens.set i { t with prev := v })

/-- Assignment `p->hash = v`. -/
def setHash (tokens : List cmpToken) (p : Option Nat) (v : Nat) :
    Option (List cmpToken) :=
  match p with
  | none => none
  | some i =>
    match tokens[i]? with
    | none => none
    | some t => some (tokens.set i { t with hash := v })

/-- Modelled from the spec: `cmpToken_Create`, "tokens are created with
explicit (kind, text, length, line)".  The new token is unlinked, its hash
is zero until the caller sets it, and it is stored at the end of the heap;
the result is the new heap and the pointer to the token.  Allocation does
not fail in the embedding. -/
def cmpToken_Create (tokens : List cmpToken) (type : cmpTokenType) (text : String)
    (line : Nat) : List cmpToken × Nat :=
  (tokens ++ [{ type := type, text := text, hash := 0, line := line,
                prev := none, next := none }], tokens.length)

/-- Modelled from the spec: `cmpToken_AddToList`, appending a token to the
linked list delimited by `first` and `last`. -/
def cmpToken_AddToList (tokens : List cmpToken) (first last : Option Nat) (token : Nat) :
    Option (List cmpToken × Option Nat × Option Nat) :=
  match first with
  | none => some (tokens, some token, some token)
  | some _ =>
    match setNext tokens last (some token) with
    | none => none
    | some tokens1 =>
      match setPrev tokens1 (some token) last with
      | none => none
      | some tokens2 => some (tokens2, first, some token)

/-- Modelled from the spec: `cmpNode_CreateEmpty`, a new node without
parent and without tokens, stored at the end of the node heap. -/
def cmpNode_CreateEmpty (nodes : List cmpNode) : List cmpNode × Nat :=
  (nodes ++ [{ type := cmpNodeType.Other, parent := none,
               first_token := none, last_token := none }], nodes.length)

/-- Insertion of `x` immediately before the first occurrence of `anchor`
in the visiting order. -/
def insertBefore (anchor x : Nat) : List Nat → List Nat
  | [] => []
  | n :: rest => if n = anchor then x :: n :: rest else n :: insertBefore anchor x rest

/-- The token part of `cmpNode_AddBefore`: the range `nf .. nl` is linked
in immediately before the token `af`. -/
def cmpNode_AddBefore.link (tokens : List cmpToken) (af nf nl : Nat) :
    Option (List cmpToken) :=
  match tokens[af]? with
  | none => none
  | some atok =>
    match setPrev tokens (some nf) atok.prev with
    | none => none
    | some tokens1 =>
      match (match atok.prev with
             | none => some tokens1
             | some p => setNext tokens1 (some p) (some nf)) with
      | none => none
      | some tokens2 =>
        match setNext tokens2 (some nl) (some af) with
        | none => none
        | some tokens3 => setPrev tokens3 (some af) (some nl)

/-- Modelled from the spec: `cmpNode_AddBefore`, "`InsertBefore(anchor,
new_node)` splices `new_node`'s token range immediately before `anchor`'s
token range in the underlying token sequence and registers `new_node` as a
sibling of `anchor` under the same parent".  When the anchor has no tokens
or the new node has none, no token is relinked; when the anchor's first
token has no predecessor the new range becomes the head of the sequence. -/
def cmpNode_AddBefore (processor : ComputeProcessor) (node insert_node : Nat) :
    Option ComputeProcessor :=
  match processor.nodes[node]?, processor.nodes[insert_node]? with
  | some a, some n =>
    match (match a.first_token, n.first_token, n.last_token with
           | some af, some nf, some nl => cmpNode_AddBefore.link processor.tokens af nf nl
           | _, _, _ => some processor.tokens) with
    | none => none
    | some tokens =>
      some { processor with
        tokens := tokens
        nodes := processor.nodes.set insert_node { n with parent := a.parent }
        order := insertBefore node insert_node processor.order }
  | _, _ => none

/-! ## Token matching -/

/-- `MatchHashes`: the set of hashes a call site expects. -/
structure MatchHashes where
  hashes : List Nat
deriving DecidableEq, Repr

/-- Modelled from the spec: `MatchHashes::Match`, hash-set membership. -/
def MatchHashes.Match (m : MatchHashes) (t : cmpToken) : Bool :=
  decide (t.hash ∈ m.hashes)

/-- `MatchTypes`: the token kind a call site expects. -/
structure MatchTypes where
  type : cmpTokenType
deriving DecidableEq, Repr

/-- Modelled from the spec: `MatchTypes::Match`, equality of token kinds. -/
def MatchTypes.Match (m : MatchTypes) (t : cmpToken) : Bool :=
  decide (t.type = m.type)

/-- Cursor over the tokens of a node (`struct TokenIterator`). -/
structure TokenIterator where
  first_token : Option Nat
  last_token : Option Nat
  token : Option Nat
deriving DecidableEq, Repr

/-- Modelled from the spec: `TokenIterator(node)`, a cursor at the first
token of the node's range. -/
def TokenIterator.ofNode (node : cmpNode) : TokenIterator :=
  { first_token := node.first_token, last_token := node.last_token,
    token := node.first_token }

/-- Modelled from the spec: `operator ++`, the explicit advance of the
cursor to the next token of the sequence. -/
def TokenIterator.advance (tokens : List cmpToken) (it : TokenIterator) :
    Option TokenIterator :=
  match tokenAt tokens it.token with
  | none => none
  | some t => some { it with token := t.next }

/-- The scan of `SeekToken`: `some (some p)` is the first matching token
from the cursor on, `some none` is "none found before the node's token range
ends" (the range ends after `last`, or where the sequence ends), and `none`
is no result (a dangling pointer, or the fuel ran out). -/
def TokenIterator.seekLoop (tokens : List cmpToken) (matcher : cmpToken → Bool)
    (last : Option Nat) : Nat → Option Nat → Option (Option Nat)
  | 0, _ => none
  | _ + 1, none => some none
  | fuel + 1, some p =>
    match tokens[p]? with
    | none => none
    | some t =>
      if matcher t then some (some p)
      else if some p = last then some none
      else TokenIterator.seekLoop tokens matcher last fuel t.next

/-- Modelled from the spec: `SeekToken`, "scans forward from a cursor for
the first token whose hash is in the set; returns null if none found before
the node's token range ends".  The cursor is left on the token returned. -/
def TokenIterator.SeekToken (tokens : List cmpToken) (it : TokenIterator)
    (matcher : cmpToken → Bool) : Option (TokenIterator × Option Nat) :=
  match TokenIterator.seekLoop tokens matcher it.last_token (tokens.length + 1) it.token with
  | none => none
  | some r => some ({ it with token := r }, r)

/-- Modelled from the spec: `ExpectToken`, "checks only the current token;
returns it if its hash is in the set, else null without advancing". -/
def TokenIterator.ExpectToken (tokens : List cmpToken) (it : TokenIterator)
    (matcher : cmpToken → Bool) : Option Nat :=
  match tokenAt tokens it.token with
  | none => none
  | some t => if matcher t then it.token else none

/-! ## FindTextureRefs: discovery of texture references -/

/-- A map from the hash of a texture reference to all its found instances
(`std::map<cmpU32, TextureRefs>`), kept as a list sorted by key. -/
abbrev TextureRefsMap := List (Nat × TextureRefs)

/-- The statement `m[key].push_back(ref)` on a `std::map`. -/
def TextureRefsMap.push : TextureRefsMap → Nat → TextureRef → TextureRefsMap
  | [], key, ref => [(key, [ref])]
  | (k, refs) :: rest, key, ref =>
    if key < k then (key, [ref]) :: (k, refs) :: rest
    else if key = k then (k, refs ++ [ref]) :: rest
    else (k, refs) :: TextureRefsMap.push rest key ref

/-- The call `m.find(key)` on a `std::map`; `none` is `end()`. -/
def TextureRefsMap.find : TextureRefsMap → Nat → Option TextureRefs
  | [], _ => none
  | (k, refs) :: rest, key => if k = key then some refs else TextureRefsMap.find rest key

/-- `m_TextureMatches`, set once by the constructor of `FindTextureRefs`. -/
def m_TextureMatches (cmpHash : String → Nat) : MatchHashes :=
  { hashes := [(KEYWORD_Texture3Dn cmpHash).hash, (KEYWORD_Texture3Du cmpHash).hash,
               (KEYWORD_Texture2Dn cmpHash).hash, (KEYWORD_Texture2Du cmpHash).hash,
               (KEYWORD_Texture1Dn cmpHash).hash, (KEYWORD_Texture1Du cmpHash).hash] }

/-- `m_TypeMatches`, set once by the constructor of `FindTextureRefs`. -/
def m_TypeMatches (cmpHash : String → Nat) : MatchHashes :=
  { hashes := [(KEYWORD_char cmpHash).hash, (KEYWORD_short cmpHash).hash,
               (KEYWORD_int cmpHash).hash, (KEYWORD_long cmpHash).hash,
               (KEYWORD_float cmpHash).hash, (KEYWORD_signed cmpHash).hash,
               (KEYWORD_unsigned cmpHash).hash] }

/-- The mutable state of the visitor `FindTextureRefs`. -/
structure FindTextureRefs where
  m_TextureRefsMap : TextureRefsMap
  m_LastError : cmpError
deriving DecidableEq, Repr

/-- Constructor `FindTextureRefs()`. -/
def FindTextureRefs.new : FindTextureRefs :=
  { m_TextureRefsMap := [], m_LastError := cmpError.OK }

/-- The test `hash == KEYWORD_signed.hash || hash == KEYWORD_unsigned.hash`. -/
def isSignedness (cmpHash : String → Nat) (hash : Nat) : Bool :=
  decide (hash = (KEYWORD_signed cmpHash).hash) || decide (hash = (KEYWORD_unsigned cmpHash).hash)

/-- An error of `Visit`: the last error is set from the line of the token
under the cursor and the visit stops. -/
def FindTextureRefs.fail (self : FindTextureRefs) (processor : ComputeProcessor)
    (iterator : TokenIterator) (format : String) : Option (Bool × FindTextureRefs) :=
  match tokenAt processor.tokens iterator.token with
  | none => none
  | some t =>
    some (false, { self with
      m_LastError := cmpError.Create format [cmpArg.str processor.filename, cmpArg.num t.line] })

/-- Lines 209-232 of `Visit`: the closing `>`, the parameter name, and the
recording of the reference. -/
def FindTextureRefs.Visit.close (self : FindTextureRefs) (processor : ComputeProcessor)
    (node : cmpNode) (ref : TextureRef) (combined_hash : Nat) (iterator : TokenIterator) :
    Option (Bool × FindTextureRefs) :=
  -- Ensure '>' closes the type naming
  if TokenIterator.ExpectToken processor.tokens iterator
      (MatchTypes.Match ⟨cmpTokenType.RAngle⟩) = none then
    FindTextureRefs.fail self processor iterator "%s(%d): Expecting '>'"
  else
    let ref := { ref with end_of_type_token := iterator.token }
    match TokenIterator.advance processor.tokens iterator with
    | none => none
    | some iterator =>
      -- Ensure that function parameters have a name
      if node.type = cmpNodeType.FunctionParams then
        if TokenIterator.ExpectToken processor.tokens iterator
            (MatchTypes.Match ⟨cmpTokenType.Symbol⟩) = none then
          FindTextureRefs.fail self processor iterator
            "%s(%d): Expecting function parameter to have a name"
        else
          let ref := { ref with name_token := iterator.token }
          match TokenIterator.advance processor.tokens iterator with
          | none => none
          | some _ =>
            some (true, { self with
              m_TextureRefsMap := TextureRefsMap.push self.m_TextureRefsMap combined_hash ref })
      else
        -- Record the texture reference
        some (true, { self with
          m_TextureRefsMap := TextureRefsMap.push self.m_TextureRefsMap combined_hash ref })

/-- Lines 159-207 of `Visit`, entered with the cursor on the texture
keyword: the start of the reference, `<`, and the one or two type names. -/
def FindTextureRefs.Visit.parse (cmpHash : String → Nat) (self : FindTextureRefs)
    (processor : ComputeProcessor) (node_ptr : Nat) (node : cmpNode)
    (iterator : TokenIterator) : Option (Bool × FindTextureRefs) :=
  -- Start the texture reference off with its node/token and token hash
  match tokenAt processor.tokens iterator.token with
  | none => none
  | some keyword =>
  let ref : TextureRef :=
    { node := some node_ptr, line := keyword.line, keyword_token := iterator.token,
      type_token := none, nb_type_tokens := 0, end_of_type_token := none,
      name_token := none }
  let combined_hash := keyword.hash
  match TokenIterator.advance processor.tokens iterator with
  | none => none
  | some iterator =>
  -- Ensure '<' follows
  if TokenIterator.ExpectToken processor.tokens iterator
      (MatchTypes.Match ⟨cmpTokenType.LAngle⟩) = none then
    FindTextureRefs.fail self processor iterator "%s(%d): Expecting '<'"
  else
  match TokenIterator.advance processor.tokens iterator with
  | none => none
  | some iterator =>
  -- Ensure a type name is next
  match TokenIterator.ExpectToken processor.tokens iterator (m_TypeMatches cmpHash).Match,
        tokenAt processor.tokens iterator.token with
  | some type_token_0, some type_0 =>
    let ref := { ref with type_token := some type_token_0, nb_type_tokens := 1 }
    let combined_hash := CombineHash combined_hash type_0.hash
    match TokenIterator.advance processor.tokens iterator with
    | none => none
    | some iterator =>
    -- If the type name was signed/unsigned, expect the rest of the type name
    if isSignedness cmpHash type_0.hash then
      match TokenIterator.ExpectToken processor.tokens iterator (m_TypeMatches cmpHash).Match,
            tokenAt processor.tokens iterator.token with
      | some _, some type_1 =>
        if isSignedness cmpHash type_1.hash then
          FindTextureRefs.fail self processor iterator
            "%s(%d): Not expecting unsigned/signed twice"
        else
          let ref := { ref with nb_type_tokens := 2 }
          let combined_hash := CombineHash combined_hash type_1.hash
          match TokenIterator.advance processor.tokens iterator with
          | none => none
          | some iterator =>
            FindTextureRefs.Visit.close self processor node ref combined_hash iterator
      | _, _ =>
        FindTextureRefs.fail self processor iterator
          "%s(%d): Expecting a type name after unsigned/signed"
    else
      FindTextureRefs.Visit.close self processor node ref combined_hash iterator
  | _, _ =>
    FindTextureRefs.fail self processor iterator "%s(%d): Expecting a type name"

/-- `FindTextureRefs::Visit`: `true` continues the traversal, `false` stops
it.  `node_ptr` is the pointer to the visited node. -/
def FindTextureRefs.Visit (cmpHash : String → Nat) (self : FindTextureRefs)
    (processor : ComputeProcessor) (node_ptr : Nat) : Option (Bool × FindTextureRefs) :=
  match processor.nodes[node_ptr]? with
  | none => none
  | some node =>
    -- Filter out the node types we're not interested in
    if node.type ≠ cmpNodeType.Statement ∧ node.type ≠ cmpNodeType.FunctionParams ∧
        node.type ≠ cmpNodeType.Typedef then
      some (true, self)
    else
    -- Search for any of the texture keywords
    match TokenIterator.SeekToken processor.tokens (TokenIterator.ofNode node)
        (m_TextureMatches cmpHash).Match with
    | none => none
    | some (_, none) => some (true, self)
    | some (iterator, some _) =>
      FindTextureRefs.Visit.parse cmpHash self processor node_ptr node iterator

/-- Modelled from the spec: `ComputeProcessor::VisitNodes`, which hands the
nodes to the visitor in traversal order; "returning stop aborts the
remaining traversal", and the result is `false` exactly then. -/
def VisitNodes {σ : Type} (visit : σ → Nat → Option (Bool × σ)) :
    List Nat → σ → Option (Bool × σ)
  | [], s => some (true, s)
  | n :: rest, s =>
    match visit s n with
    | none => none
    | some (false, s1) => some (false, s1)
    | some (true, s1) => VisitNodes visit rest s1

/-! ## TextureType: synthesis of the declaration and the splice -/

/-- The state of a `TextureType` object.  `m_Name` is the owned string
(`struct String`): `none` is the null text pointer. -/
structure TextureType where
  m_TextureRefsKey : Nat
  m_Name : Option String
  m_FirstToken : Option Nat
  m_LastToken : Option Nat
  m_LastError : cmpError
deriving DecidableEq, Repr

/-- Constructor `TextureType(cmpU32 texture_refs_key)`. -/
def TextureType.new (texture_refs_key : Nat) : TextureType :=
  { m_TextureRefsKey := texture_refs_key, m_Name := none, m_FirstToken := none,
    m_LastToken := none, m_LastError := cmpError.OK }

/-- The text a token made from `m_Name.text`, `m_Name.length` spans. -/
def TextureType.nameText (self : TextureType) : String :=
  match self.m_Name with
  | none => ""
  | some s => s

/-- `AddToken(type, start, length, line)`: creates a token and appends it to
the list owned by the texture type.  The result is the new state, the new
heap and the pointer to the token. -/
def TextureType.AddToken (self : TextureType) (tokens : List cmpToken)
    (type : cmpTokenType) (text : String) (line : Nat) :
    Option (TextureType × List cmpToken × Nat) :=
  match cmpToken_Create tokens type text line with
  | (tokens1, token) =>
    match cmpToken_AddToList tokens1 self.m_FirstToken self.m_LastToken token with
    | none => none
    | some (tokens2, first, last) =>
      some ({ self with m_FirstToken := first, m_LastToken := last,
                        m_LastError := cmpError.OK }, tokens2, token)

/-- `AddToken(keyword, line)`: a symbol token using the keyword text, with
the keyword hash. -/
def TextureType.AddKeywordToken (self : TextureType) (tokens : List cmpToken)
    (keyword : Keyword) (line : Nat) : Option (TextureType × List cmpToken × Nat) :=
  match TextureType.AddToken self tokens cmpTokenType.Symbol keyword.text line with
  | none => none
  | some (self1, tokens1, token) =>
    match setHash tokens1 (some token) keyword.hash with
    | none => none
    | some tokens2 => some (self1, tokens2, token)

/-- The call `sprintf(type_name, "__TextureTypeName_%d__", unique_index)`. -/
def sprintf_TextureTypeName (unique_index : Nat) : String :=
  "__TextureTypeName_" ++ toString unique_index ++ "__"

/-- The decoding `keyword[7] - '0'` as a `cmpU32`. -/
def decodeDimensions (keyword : String) : Option Nat :=
  match keyword.data[7]? with
  | none => none
  | some c => some ((c.toNat + 2 ^ 32 - 48) % 2 ^ 32)

/-- The `switch (dimensions)` that selects the dimension keyword; `none` is
the null `kw_dimensions`. -/
def dimensionKeyword (cmpHash : String → Nat) (dimensions : Nat) : Option Keyword :=
  if dimensions = 1 then some (KEYWORD_1 cmpHash)
  else if dimensions = 2 then some (KEYWORD_2 cmpHash)
  else if dimensions = 3 then some (KEYWORD_3 cmpHash)
  else none

/-- The loop that walks from a node up its parent chain until a function
definition or declaration is found; the result `some none` is the null
pointer the loop ends with when there is none, `none` is no result (a
dangling pointer, or the fuel ran out). -/
def findFunctionNode (nodes : List cmpNode) : Nat → Option Nat → Option (Option Nat)
  | 0, _ => none
  | _ + 1, none => some none
  | fuel + 1, some p =>
    match nodes[p]? with
    | none => none
    | some n =>
      if n.type ≠ cmpNodeType.FunctionDefn ∧ n.type ≠ cmpNodeType.FunctionDecl then
        findFunctionNode nodes fuel n.parent
      else some (some p)

/-- Lines 449-458 of `AddTypeDeclaration`: the node the declaration is
inserted before. -/
def insertBeforeNode (nodes : List cmpNode) (ref_node : Option Nat) : Option (Option Nat) :=
  match ref_node with
  | none => none
  | some p =>
    match nodes[p]? with
    | none => none
    | some n =>
      if n.type ≠ cmpNodeType.Typedef then
        findFunctionNode nodes (nodes.length + 1) ref_node
      else some ref_node

/-- Lines 368-387 of `AddTypeDeclaration`: the start of the macro call and
the texel type name tokens. -/
def TextureType.addTypeTokens (cmpHash : String → Nat) (self : TextureType)
    (tokens : List cmpToken) (ref : TextureRef) : Option (TextureType × List cmpToken) :=
  -- Start off the macro call
  match TextureType.AddKeywordToken self tokens (KEYWORD_cmp_texture_type cmpHash) ref.line with
  | none => none
  | some (self, tokens, _) =>
  match TextureType.AddToken self tokens cmpTokenType.LBracket "(" ref.line with
  | none => none
  | some (self, tokens, _) =>
  -- Add the texel type name tokens
  match tokenAt tokens ref.type_token with
  | none => none
  | some type_token =>
  match TextureType.AddToken self tokens cmpTokenType.Symbol type_token.text ref.line with
  | none => none
  | some (self, tokens, _) =>
  match (if ref.nb_type_tokens > 1 then
           match tokenAt tokens type_token.next with
           | none => none
           | some type_token =>
             match TextureType.AddToken self tokens cmpTokenType.Symbol type_token.text ref.line with
             | none => none
             | some (self, tokens, _) => some (self, tokens)
         else some (self, tokens)) with
  | none => none
  | some (self, tokens) =>
  match TextureType.AddToken self tokens cmpTokenType.Comma "," ref.line with
  | none => none
  | some (self, tokens, _) => some (self, tokens)

/-- Lines 389-438 of `AddTypeDeclaration`: the dimension, the read type,
the generated name and the end of the statement. -/
def TextureType.addKindTokens (cmpHash : String → Nat) (self : TextureType)
    (tokens : List cmpToken) (ref : TextureRef) (unique_index : Nat) :
    Option (TextureType × List cmpToken) :=
  -- Decode number of texture dimensions and read type
  match tokenAt tokens ref.keyword_token with
  | none => none
  | some keyword_token =>
  if keyword_token.text.length ≠ 10 then none else
  match decodeDimensions keyword_token.text, keyword_token.text.data[9]? with
  | some dimensions, some read_type =>
    if ¬ dimensions < 4 then none else
    if ¬ (read_type = 'u' ∨ read_type = 'n') then none else
    -- Add the texture dimension token
    match dimensionKeyword cmpHash dimensions with
    | none => none
    | some kw_dimensions =>
    match TextureType.AddToken self tokens cmpTokenType.Number kw_dimensions.text ref.line with
    | none => none
    | some (self, tokens, _) =>
    match TextureType.AddToken self tokens cmpTokenType.Comma "," ref.line with
    | none => none
    | some (self, tokens, _) =>
    -- Add read type token
    match (if read_type = 'u' then
             TextureType.AddKeywordToken self tokens (KEYWORD_cudaReadModeElementType cmpHash)
               ref.line
           else
             TextureType.AddKeywordToken self tokens
               (KEYWORD_cudaReadModeNormalizedFloat cmpHash) ref.line) with
    | none => none
    | some (self, tokens, _) =>
    match TextureType.AddToken self tokens cmpTokenType.Comma "," ref.line with
    | none => none
    | some (self, tokens, _) =>
    -- Generate a unique type name and add as a symbol token
    if self.m_Name ≠ none then none else
    let self := { self with m_Name := some (sprintf_TextureTypeName unique_index) }
    match TextureType.AddToken self tokens cmpTokenType.Symbol (TextureType.nameText self)
        ref.line with
    | none => none
    | some (self, tokens, _) =>
    -- Close the statement
    match TextureType.AddToken self tokens cmpTokenType.RBracket ")" ref.line with
    | none => none
    | some (self, tokens, _) =>
    match TextureType.AddToken self tokens cmpTokenType.SemiColon ";" ref.line with
    | none => none
    | some (self, tokens, _) => some (self, tokens)
  | _, _ => none

/-- `TextureType::AddTypeDeclaration`.  The result is the returned flag,
the new state of the texture type and the new state of the processor. -/
def TextureType.AddTypeDeclaration (cmpHash : String → Nat) (self : TextureType)
    (processor : ComputeProcessor) (ref : TextureRef) (unique_index : Nat) :
    Option (Bool × TextureType × ComputeProcessor) :=
  match TextureType.addTypeTokens cmpHash self processor.tokens ref with
  | none => none
  | some (self, tokens) =>
  match TextureType.addKindTokens cmpHash self tokens ref unique_index with
  | none => none
  | some (self, tokens) =>
  -- Create the containing node (to be deleted by the parse tree)
  match cmpNode_CreateEmpty processor.nodes with
  | (nodes, type_node) =>
  let self := { self with m_LastError := cmpError.OK }
  let nodes := nodes.set type_node
    { type := cmpNodeType.UserTokens, parent := none,
      first_token := self.m_FirstToken, last_token := self.m_LastToken }
  let processor := { processor with tokens := tokens, nodes := nodes }
  -- Always insert right before typedefs
  match insertBeforeNode processor.nodes ref.node with
  | none => none
  | some none =>
    some (false, { self with
      m_LastError := cmpError.Create "Failed to find good location for type declaration" [] },
      processor)
  | some (some insert_before_node) =>
    match cmpNode_AddBefore processor insert_before_node type_node with
    | none => none
    | some processor => some (true, self, processor)

/-- `TextureType::ReplaceTypeInstance`.  The result is the returned flag,
the new state of the texture type and the new token heap. -/
def TextureType.ReplaceTypeInstance (self : TextureType) (tokens : List cmpToken)
    (ref : TextureRef) : Option (Bool × TextureType × List cmpToken) :=
  -- Create the single replacement token
  match cmpToken_Create tokens cmpTokenType.Symbol (TextureType.nameText self) ref.line with
  | (tokens, token) =>
  let self := { self with m_LastError := cmpError.OK }
  -- Cut out the original tokens and replace with the new one
  let first_token := ref.keyword_token
  let last_token := ref.end_of_type_token
  -- token->prev = first_token->prev
  match tokenAt tokens first_token with
  | none => none
  | some first =>
  match setPrev tokens (some token) first.prev with
  | none => none
  | some tokens =>
  -- token->prev->next = token
  match tokenAt tokens (some token) with
  | none => none
  | some t =>
  match setNext tokens t.prev (some token) with
  | none => none
  | some tokens =>
  -- token->next = last_token->next
  match tokenAt tokens last_token with
  | none => none
  | some last =>
  match setNext tokens (some token) last.next with
  | none => none
  | some tokens =>
  -- token->next->prev = token
  match tokenAt tokens (some token) with
  | none => none
  | some t =>
  match setPrev tokens t.next (some token) with
  | none => none
  | some tokens => some (true, self, tokens)

/-! ## TextureTransform: the pass -/

/-- Largest value of an `int`. -/
def INT_MAX : Nat := 2147483647

/-- The state of a `TextureTransform` object. -/
structure TextureTransform where
  m_UniqueTypeIndex : Nat
  m_TextureTypes : List TextureType
deriving DecidableEq, Repr

/-- Constructor `TextureTransform()`. -/
def TextureTransform.new : TextureTransform :=
  { m_UniqueTypeIndex := 0, m_TextureTypes := [] }

/-- The loop of lines 561-574 of `Apply` over the entries of the map that
are still to be processed, with every token kept alive: the destruction of
the tokens when the local `texture_type` goes out of scope is left out
here, and `TextureTransform.Apply.declareDestroying` is the loop with it.
The first component of the result is the error the loop returned from
`Apply` with, `none` when the loop ran to its end.  The increment of
`m_UniqueTypeIndex` has no result when it overflows. -/
def TextureTransform.Apply.declare (cmpHash : String → Nat) :
    TextureRefsMap → TextureTransform → ComputeProcessor →
      Option (Option cmpError × TextureTransform × ComputeProcessor)
  | [], self, processor => some (none, self, processor)
  | (key, refs) :: rest, self, processor =>
    -- Generate a texture type from the first instance of this texture reference
    match FindFirstTextureRef refs with
    | none => none
    | some first_ref =>
      let texture_type := TextureType.new key
      -- Place a type declaration somewhere before the first node
      if self.m_UniqueTypeIndex ≥ INT_MAX then none else
      let unique_index := self.m_UniqueTypeIndex
      let self := { self with m_UniqueTypeIndex := self.m_UniqueTypeIndex + 1 }
      match TextureType.AddTypeDeclaration cmpHash texture_type processor first_ref
          unique_index with
      | none => none
      | some (false, texture_type, processor) =>
        some (some texture_type.m_LastError, self, processor)
      | some (true, texture_type, processor) =>
        TextureTransform.Apply.declare cmpHash rest
          { self with m_TextureTypes := self.m_TextureTypes ++ [texture_type] } processor

/-- The inner loop of lines 582-586 of `Apply`, over the references of one
texture type that are still to be replaced. -/
def TextureTransform.Apply.replaceRefs :
    TextureRefs → TextureType → List cmpToken →
      Option (Option cmpError × TextureType × List cmpToken)
  | [], texture_type, tokens => some (none, texture_type, tokens)
  | ref :: rest, texture_type, tokens =>
    match TextureType.ReplaceTypeInstance texture_type tokens ref with
    | none => none
    | some (false, texture_type, tokens) =>
      some (some texture_type.m_LastError, texture_type, tokens)
    | some (true, texture_type, tokens) =>
      TextureTransform.Apply.replaceRefs rest texture_type tokens

/-- The outer loop of lines 577-587 of `Apply`, over the texture types that
are still to be processed; the result holds their new states. -/
def TextureTransform.Apply.replace (refs_map : TextureRefsMap) :
    List TextureType → List cmpToken →
      Option (Option cmpError × List TextureType × List cmpToken)
  | [], tokens => some (none, [], tokens)
  | texture_type :: rest, tokens =>
    match TextureRefsMap.find refs_map texture_type.m_TextureRefsKey with
    | none => none
    | some refs =>
      match TextureTransform.Apply.replaceRefs refs texture_type tokens with
      | none => none
      | some (some e, texture_type, tokens) => some (some e, texture_type :: rest, tokens)
      | some (none, texture_type, tokens) =>
        match TextureTransform.Apply.replace refs_map rest tokens with
        | none => none
        | some (r, rest, tokens) => some (r, texture_type :: rest, tokens)

/-- `TextureTransform::Apply` with every token kept alive: the discovery,
the declarations and the splices as the code makes them, without the
destruction of tokens by the destructor of the local `texture_type`;
`TextureTransform.Apply.destroying` is the pass with it, and it returns this
result whenever it returns one.  The result is the returned error, the new
state of the transform and the new state of the processor. -/
def TextureTransform.Apply (cmpHash : String → Nat) (self : TextureTransform)
    (processor : ComputeProcessor) :
    Option (cmpError × TextureTransform × ComputeProcessor) :=
  -- Find all texture references
  match VisitNodes (fun ftr node => FindTextureRefs.Visit cmpHash ftr processor node)
      processor.order FindTextureRefs.new with
  | none => none
  | some (false, ftr) => some (ftr.m_LastError, self, processor)
  | some (true, ftr) =>
    let refs_map := ftr.m_TextureRefsMap
    if refs_map.length = 0 then some (cmpError.OK, self, processor) else
    -- Build a list of all unique texture types introduced
    match TextureTransform.Apply.declare cmpHash refs_map self processor with
    | none => none
    | some (some e, self, processor) => some (e, self, processor)
    | some (none, self, processor) =>
      -- Replace the type of all texture references with the newly generated unique ones
      match TextureTransform.Apply.replace refs_map self.m_TextureTypes processor.tokens with
      | none => none
      | some (some e, texture_types, tokens) =>
        some (e, { self with m_TextureTypes := texture_types },
          { processor with tokens := tokens })
      | some (none, texture_types, tokens) =>
        some (cmpError.OK, { self with m_TextureTypes := texture_types },
          { processor with tokens := tokens })

/-! ## Notions used to state the properties -/

/-- The pointer reached from `p` by following `next` `n` times. -/
def nthNext (tokens : List cmpToken) : Nat → Option Nat → Option Nat
  | 0, p => p
  | n + 1, p =>
    match tokenAt tokens p with
    | none => none
    | some t => nthNext tokens n t.next

/-- The token `n` places after the token `p` points at. -/
def tokenAfter (tokens : List cmpToken) (p : Option Nat) (n : Nat) : Option cmpToken :=
  tokenAt tokens (nthNext tokens n p)

/-- The token exists and satisfies the test. -/
def tokenIs (t : Option cmpToken) (test : cmpToken → Bool) : Bool :=
  match t with
  | none => false
  | some t => test t

/-- The hash is that of `signed` or `unsigned`. -/
def isSignednessQualifier (cmpHash : String → Nat) (t : cmpToken) : Bool :=
  decide (t.hash ∈ [(KEYWORD_signed cmpHash).hash, (KEYWORD_unsigned cmpHash).hash])

/-- The hash is that of one of `char`, `short`, `int`, `long`, `float`. -/
def isTexelTypeName (cmpHash : String → Nat) (t : cmpToken) : Bool :=
  decide (t.hash ∈ [(KEYWORD_char cmpHash).hash, (KEYWORD_short cmpHash).hash,
    (KEYWORD_int cmpHash).hash, (KEYWORD_long cmpHash).hash, (KEYWORD_float cmpHash).hash])

/-- The hashes of `signed` and `unsigned` differ from the hashes of the
five texel type names. -/
def SignednessHashesApart (cmpHash : String → Nat) : Prop :=
  ∀ t : cmpToken, isSignednessQualifier cmpHash t = true → isTexelTypeName cmpHash t = false

/-- The recognised pattern without a signedness qualifier, after the
keyword token `kw`: `<`, a texel type name, `>`, and a symbol when a name
is required. -/
def followsPlain (cmpHash : String → Nat) (tokens : List cmpToken) (need_name : Bool)
    (kw : Option Nat) : Bool :=
  tokenIs (tokenAfter tokens kw 1) (fun t => decide (t.type = cmpTokenType.LAngle)) &&
  tokenIs (tokenAfter tokens kw 2) (isTexelTypeName cmpHash) &&
  tokenIs (tokenAfter tokens kw 3) (fun t => decide (t.type = cmpTokenType.RAngle)) &&
  (!need_name ||
    tokenIs (tokenAfter tokens kw 4) (fun t => decide (t.type = cmpTokenType.Symbol)))

/-- The recognised pattern with a signedness qualifier, after the keyword
token `kw`: `<`, `signed` or `unsigned`, a texel type name, `>`, and a
symbol when a name is required. -/
def followsQualified (cmpHash : String → Nat) (tokens : List cmpToken) (need_name : Bool)
    (kw : Option Nat) : Bool :=
  tokenIs (tokenAfter tokens kw 1) (fun t => decide (t.type = cmpTokenType.LAngle)) &&
  tokenIs (tokenAfter tokens kw 2) (isSignednessQualifier cmpHash) &&
  tokenIs (tokenAfter tokens kw 3) (isTexelTypeName cmpHash) &&
  tokenIs (tokenAfter tokens kw 4) (fun t => decide (t.type = cmpTokenType.RAngle)) &&
  (!need_name ||
    tokenIs (tokenAfter tokens kw 5) (fun t => decide (t.type = cmpTokenType.Symbol)))

/-- The hash of the token, zero when there is none. -/
def hashOf (t : Option cmpToken) : Nat :=
  match t with
  | none => 0
  | some t => t.hash

/-- The line of the token, zero when there is none. -/
def lineOf (t : Option cmpToken) : Nat :=
  match t with
  | none => 0
  | some t => t.line

/-- The reference `Visit` records for the pattern without a signedness
qualifier that starts at the keyword token `kw` of the node `node_ptr`. -/
def recordedPlain (tokens : List cmpToken) (node_ptr : Nat) (need_name : Bool)
    (kw : Option Nat) : TextureRef :=
  { node := some node_ptr
    line := lineOf (tokenAfter tokens kw 0)
    keyword_token := kw
    type_token := nthNext tokens 2 kw
    nb_type_tokens := 1
    end_of_type_token := nthNext tokens 3 kw
    name_token := if need_name then nthNext tokens 4 kw else none }

/-- The key of the pattern without a signedness qualifier. -/
def keyPlain (tokens : List cmpToken) (kw : Option Nat) : Nat :=
  CombineHash (hashOf (tokenAfter tokens kw 0)) (hashOf (tokenAfter tokens kw 2))

/-- The reference `Visit` records for the pattern with a signedness
qualifier that starts at the keyword token `kw` of the node `node_ptr`. -/
def recordedQualified (tokens : List cmpToken) (node_ptr : Nat) (need_name : Bool)
    (kw : Option Nat) : TextureRef :=
  { node := some node_ptr
    line := lineOf (tokenAfter tokens kw 0)
    keyword_token := kw
    type_token := nthNext tokens 2 kw
    nb_type_tokens := 2
    end_of_type_token := nthNext tokens 4 kw
    name_token := if need_name then nthNext tokens 5 kw else none }

/-- The key of the pattern with a signedness qualifier. -/
def keyQualified (tokens : List cmpToken) (kw : Option Nat) : Nat :=
  CombineHash
    (CombineHash (hashOf (tokenAfter tokens kw 0)) (hashOf (tokenAfter tokens kw 2)))
    (hashOf (tokenAfter tokens kw 3))

/-- The error formats of `Visit`. -/
def visitFormats : List String :=
  ["%s(%d): Expecting '<'", "%s(%d): Expecting a type name",
   "%s(%d): Expecting a type name after unsigned/signed",
   "%s(%d): Not expecting unsigned/signed twice", "%s(%d): Expecting '>'",
   "%s(%d): Expecting function parameter to have a name"]

/-- The state of the visitor after it stopped with an error that cites
the line of the token `t`. -/
def stoppedAt (self : FindTextureRefs) (processor : ComputeProcessor) (fmt : String)
    (t : cmpToken) : FindTextureRefs :=
  { self with
    m_LastError := cmpError.Create fmt [cmpArg.str processor.filename, cmpArg.num t.line] }

/-! ## Sample data -/

/-- A sample hash function: a polynomial hash modulo `2 ^ 32`. -/
def sampleHash (s : String) : Nat :=
  s.data.foldl (fun h c => (h * 31 + c.toNat) % 4294967296) 7

/-- The token heap a lexer produces for a sequence of `(kind, text, line)`:
token `i` is linked to its neighbours and carries the hash of its text. -/
def lexed (cmpHash : String → Nat) (items : List (cmpTokenType × String × Nat)) :
    List cmpToken :=
  (List.range items.length).zipWith
    (fun i (item : cmpTokenType × String × Nat) =>
      { type := item.1, text := item.2.1, hash := cmpHash item.2.1, line := item.2.2,
        prev := if i = 0 then none else some (i - 1),
        next := if i + 1 < items.length then some (i + 1) else none })
    items

/-- A reference on the given line, with no pointers set. -/
def sampleRef (line : Nat) : TextureRef :=
  { node := none, line := line, keyword_token := none, type_token := none,
    nb_type_tokens := 1, end_of_type_token := none, name_token := none }

/-- Sample: `typedef Texture2Dn<float> Foo;` as one `Typedef` node. -/
def sampleTypedef : ComputeProcessor :=
  { filename := "a.cl"
    tokens := lexed sampleHash
      [(cmpTokenType.Symbol, "typedef", 1), (cmpTokenType.Symbol, "Texture2Dn", 1),
       (cmpTokenType.LAngle, "<", 1), (cmpTokenType.Symbol, "float", 1),
       (cmpTokenType.RAngle, ">", 1), (cmpTokenType.Symbol, "Foo", 1),
       (cmpTokenType.SemiColon, ";", 1)]
    nodes := [{ type := cmpNodeType.Typedef, parent := none, first_token := some 0,
                last_token := some 6 }]
    order := [0] }

/-- Sample: the statement `Texture2Dn<double> t;` on line 3, followed by the
statement `Texture1Du<short t;` on line 5, in the body of `void f() { ... }`. -/
def sampleMalformed : ComputeProcessor :=
  { filename := "a.cl"
    tokens := lexed sampleHash
      [(cmpTokenType.Symbol, "void", 1), (cmpTokenType.Symbol, "f", 1),
       (cmpTokenType.LBracket, "(", 1), (cmpTokenType.RBracket, ")", 1),
       (cmpTokenType.Other, "\x7b", 2),
       (cmpTokenType.Symbol, "Texture2Dn", 3), (cmpTokenType.LAngle, "<", 3),
       (cmpTokenType.Symbol, "double", 3), (cmpTokenType.RAngle, ">", 3),
       (cmpTokenType.Symbol, "t", 3), (cmpTokenType.SemiColon, ";", 3),
       (cmpTokenType.Symbol, "Texture1Du", 5), (cmpTokenType.LAngle, "<", 5),
       (cmpTokenType.Symbol, "short", 5), (cmpTokenType.Symbol, "t", 6),
       (cmpTokenType.SemiColon, ";", 6), (cmpTokenType.Other, "\x7d", 7)]
    nodes := [{ type := cmpNodeType.FunctionDefn, parent := none, first_token := some 0,
                last_token := some 16 },
              { type := cmpNodeType.Statement, parent := some 0, first_token := some 5,
                last_token := some 10 },
              { type := cmpNodeType.Statement, parent := some 0, first_token := some 11,
                last_token := some 15 }]
    order := [0, 1, 2] }

/-- The reference `Visit` records for `sampleTypedef`. -/
def sampleTypedefRef : TextureRef :=
  { node := some 0, line := 1, keyword_token := some 1, type_token := some 3,
    nb_type_tokens := 1, end_of_type_token := some 4, name_token := none }

/-- Dereference of a node pointer. -/
def nodeAt (nodes : List cmpNode) (p : Option Nat) : Option cmpNode :=
  match p with
  | none => none
  | some i => nodes[i]?

/-- The pointer reached from `p` by following `parent` `n` times. -/
def nthParent (nodes : List cmpNode) : Nat → Option Nat → Option Nat
  | 0, p => p
  | n + 1, p =>
    match nodeAt nodes p with
    | none => none
    | some nd => nthParent nodes n nd.parent

/-- The node exists and is a function definition or declaration. -/
def isFunctionNode (nodes : List cmpNode) (p : Option Nat) : Bool :=
  match nodeAt nodes p with
  | none => false
  | some nd =>
    decide (nd.type = cmpNodeType.FunctionDefn) || decide (nd.type = cmpNodeType.FunctionDecl)

/-- The state reached while `AddTypeDeclaration` builds its token chain on
top of the heap `base`: the heap holds `base` unchanged followed by one
token per item, each with the kind and text of its item and the given line,
linked to the next one, and the texture type owns the chain. -/
def BuiltChain (base : List cmpToken) (line : Nat) (items : List (cmpTokenType × String))
    (self : TextureType) (tokens : List cmpToken) : Prop :=
  tokens.length = base.length + items.length ∧
  (∀ j, j < base.length → tokens[j]? = base[j]?) ∧
  self.m_FirstToken = (if items.length = 0 then none else some base.length) ∧
  self.m_LastToken = (if items.length = 0 then none
    else some (base.length + items.length - 1)) ∧
  ∀ i item, items[i]? = some item →
    ∃ t, tokens[base.length + i]? = some t ∧ t.type = item.1 ∧ t.text = item.2 ∧
      t.line = line ∧ (i + 1 < items.length → t.next = some (base.length + i + 1))

/-- The tokens at the pointers `n`, `n + 1`, ... carry the kinds and texts of
the items and the given line, and each but the last is linked to the next. -/
def ChainLinked (n line : Nat) (items : List (cmpTokenType × String))
    (tokens : List cmpToken) : Prop :=
  ∀ i item, items[i]? = some item →
    ∃ t, tokens[n + i]? = some t ∧ t.type = item.1 ∧ t.text = item.2 ∧
      t.line = line ∧ (i + 1 < items.length → t.next = some (n + i + 1))

/-- The pointers of the token sequence that starts at `head`, in order. -/
def sequenceFrom (tokens : List cmpToken) : Nat → Option Nat → List Nat
  | 0, _ => []
  | _ + 1, none => []
  | fuel + 1, some p =>
    match tokens[p]? with
    | none => []
    | some t => p :: sequenceFrom tokens fuel t.next

/-- The invariant `prev.next == self` and `next.prev == self` at the token
`p`. -/
def linkedBothWays (tokens : List cmpToken) (p : Nat) : Bool :=
  match tokens[p]? with
  | none => false
  | some t =>
    (match t.prev with
     | none => true
     | some q =>
       match tokens[q]? with
       | none => false
       | some tq => decide (tq.next = some p)) &&
    (match t.next with
     | none => true
     | some q =>
       match tokens[q]? with
       | none => false
       | some tq => decide (tq.prev = some p))

/-- The token range of the node is a contiguous sub-chain of the token
sequence that starts at `head`: its first token is in that sequence, and its
last token is reached from the first one. -/
def nodeRangeContiguous (tokens : List cmpToken) (head : Option Nat) (nd : cmpNode) : Bool :=
  match nd.first_token, nd.last_token with
  | some f, some l =>
    (sequenceFrom tokens tokens.length head).contains f &&
    (sequenceFrom tokens tokens.length (some f)).contains l
  | _, _ => false

/-- Sample: `void f() { Texture3Dn<short> tex; }` with the statement on line
2, as a `FunctionDefn` node with a `FunctionParams` and a `Statement` child. -/
def sampleStatement : ComputeProcessor :=
  { filename := "a.cl"
    tokens := lexed sampleHash
      [(cmpTokenType.Symbol, "void", 1), (cmpTokenType.Symbol, "f", 1),
       (cmpTokenType.LBracket, "(", 1), (cmpTokenType.RBracket, ")", 1),
       (cmpTokenType.Other, "\x7b", 1),
       (cmpTokenType.Symbol, "Texture3Dn", 2), (cmpTokenType.LAngle, "<", 2),
       (cmpTokenType.Symbol, "short", 2), (cmpTokenType.RAngle, ">", 2),
       (cmpTokenType.Symbol, "tex", 2), (cmpTokenType.SemiColon, ";", 2),
       (cmpTokenType.Other, "\x7d", 3)]
    nodes := [{ type := cmpNodeType.FunctionDefn, parent := none, first_token := some 0,
                last_token := some 11 },
              { type := cmpNodeType.FunctionParams, parent := some 0, first_token := some 2,
                last_token := some 3 },
              { type := cmpNodeType.Statement, parent := some 0, first_token := some 5,
                last_token := some 10 }]
    order := [0, 1, 2] }

/-- The reference `Visit` records for the statement of `sampleStatement`. -/
def sampleStatementRef : TextureRef :=
  { node := some 2, line := 2, keyword_token := some 5, type_token := some 7,
    nb_type_tokens := 1, end_of_type_token := some 8, name_token := none }

/-- Sample: `void f(Texture1Du<int> a, Texture2Dn<float> b);` as a
`FunctionDecl` node with a `FunctionParams` child that holds both
parameters. -/
def sampleMixedParams : ComputeProcessor :=
  { filename := "a.cl"
    tokens := lexed sampleHash
      [(cmpTokenType.Symbol, "void", 1), (cmpTokenType.Symbol, "f", 1),
       (cmpTokenType.LBracket, "(", 1),
       (cmpTokenType.Symbol, "Texture1Du", 1), (cmpTokenType.LAngle, "<", 1),
       (cmpTokenType.Symbol, "int", 1), (cmpTokenType.RAngle, ">", 1),
       (cmpTokenType.Symbol, "a", 1), (cmpTokenType.Comma, ",", 1),
       (cmpTokenType.Symbol, "Texture2Dn", 1), (cmpTokenType.LAngle, "<", 1),
       (cmpTokenType.Symbol, "float", 1), (cmpTokenType.RAngle, ">", 1),
       (cmpTokenType.Symbol, "b", 1),
       (cmpTokenType.RBracket, ")", 1), (cmpTokenType.SemiColon, ";", 1)]
    nodes := [{ type := cmpNodeType.FunctionDecl, parent := none, first_token := some 0,
                last_token := some 15 },
              { type := cmpNodeType.FunctionParams, parent := some 0, first_token := some 2,
                last_token := some 14 }]
    order := [0, 1] }

/-- Sample: the statement `Texture3Dn<short> a;` on line 2, followed by the
statement `Texture1Du<short b;` on line 3, in the body of `void f() { ... }`. -/
def sampleLateError : ComputeProcessor :=
  { filename := "a.cl"
    tokens := lexed sampleHash
      [(cmpTokenType.Symbol, "void", 1), (cmpTokenType.Symbol, "f", 1),
       (cmpTokenType.LBracket, "(", 1), (cmpTokenType.RBracket, ")", 1),
       (cmpTokenType.Other, "\x7b", 1),
       (cmpTokenType.Symbol, "Texture3Dn", 2), (cmpTokenType.LAngle, "<", 2),
       (cmpTokenType.Symbol, "short", 2), (cmpTokenType.RAngle, ">", 2),
       (cmpTokenType.Symbol, "a", 2), (cmpTokenType.SemiColon, ";", 2),
       (cmpTokenType.Symbol, "Texture1Du", 3), (cmpTokenType.LAngle, "<", 3),
       (cmpTokenType.Symbol, "short", 3), (cmpTokenType.Symbol, "b", 3),
       (cmpTokenType.SemiColon, ";", 3), (cmpTokenType.Other, "\x7d", 4)]
    nodes := [{ type := cmpNodeType.FunctionDefn, parent := none, first_token := some 0,
                last_token := some 16 },
              { type := cmpNodeType.Statement, parent := some 0, first_token := some 5,
                last_token := some 10 },
              { type := cmpNodeType.Statement, parent := some 0, first_token := some 11,
                last_token := some 15 }]
    order := [0, 1, 2] }

/-! ## Base: paths and command-line arguments -/

/-- The character `\`. -/
def BACKSLASH : Char := Char.ofNat 92

/-- `JoinPaths`.  The calls `back()` and `front()` have no result on an
empty string. -/
def JoinPaths (p0 p1 : String) : Option String :=
  -- Need to take into account "A"+"B", "A/"+"B", "A"+"/B", "A/"+"/B"
  match p0.data.getLast?, p1.data.head?, p1.data.getLast? with
  | some p0_back, some p1_front, some p1_back =>
    let path := p0
    let path := if p0_back = BACKSLASH ∨ p0_back = '/' then
      String.mk (path.data.take (path.data.length - 1)) else path
    let path := if p1_front ≠ BACKSLASH ∧ p1_back ≠ '/' then path ++ "/" else path
    some (path ++ p1)
  | _, _, _ => none

/-- The value `-1` converted to `size_t`, for a `size_t` of 64 bits. -/
def SIZE_T_MINUS_ONE : Nat := 2 ^ 64 - 1

/-- The state of an `Arguments` object. -/
structure Arguments where
  m_Arguments : List String
deriving DecidableEq, Repr

/-- The loop of `GetIndexOf` from the index `i` on, over the arguments that
are left, with `found` matches counted so far.  The increment `found++` of
an `int` has no result when it overflows. -/
def Arguments.GetIndexOf.loop (arg : String) (occurrence : Int) :
    List String → Nat → Nat → Option Nat
  | [], _, _ => some SIZE_T_MINUS_ONE
  | a :: rest, i, found =>
    if a = arg then
      if found ≥ INT_MAX then none
      else if (found : Int) = occurrence then some i
      else Arguments.GetIndexOf.loop arg occurrence rest (i + 1) (found + 1)
    else Arguments.GetIndexOf.loop arg occurrence rest (i + 1) found

/-- `Arguments::GetIndexOf`. -/
def Arguments.GetIndexOf (self : Arguments) (arg : String) (occurrence : Int) : Option Nat :=
  -- Linear search for a matching argument
  Arguments.GetIndexOf.loop arg occurrence self.m_Arguments 0 0

/-- `Arguments::Have`.  The call `GetIndexOf(arg)` leaves `occurrence` to the
default argument of the declaration, which is taken to be 0. -/
def Arguments.Have (self : Arguments) (arg : String) : Option Bool :=
  -- Does the specific argument exist?
  match Arguments.GetIndexOf self arg 0 with
  | none => none
  | some index => some (decide (index ≠ SIZE_T_MINUS_ONE))

/-- `Arguments::GetProperty`. -/
def Arguments.GetProperty (self : Arguments) (arg : String) (occurrence : Int) :
    Option String :=
  -- Does the arg exist and does it have a value
  match Arguments.GetIndexOf self arg occurrence with
  | none => none
  | some index =>
    if index = SIZE_T_MINUS_ONE ∨ (index + 1) % 2 ^ 64 ≥ self.m_Arguments.length then some ""
    else self.m_Arguments[index + 1]?

/-- Sample: `void f() { typedef Texture2Dn<float> Foo; }` with the typedef
on line 2, as a `FunctionDefn` node with a `Typedef` child. -/
def sampleNestedTypedef : ComputeProcessor :=
  { filename := "a.cl"
    tokens := lexed sampleHash
      [(cmpTokenType.Symbol, "void", 1), (cmpTokenType.Symbol, "f", 1),
       (cmpTokenType.LBracket, "(", 1), (cmpTokenType.RBracket, ")", 1),
       (cmpTokenType.Other, "\x7b", 1),
       (cmpTokenType.Symbol, "typedef", 2), (cmpTokenType.Symbol, "Texture2Dn", 2),
       (cmpTokenType.LAngle, "<", 2), (cmpTokenType.Symbol, "float", 2),
       (cmpTokenType.RAngle, ">", 2), (cmpTokenType.Symbol, "Foo", 2),
       (cmpTokenType.SemiColon, ";", 2), (cmpTokenType.Other, "\x7d", 3)]
    nodes := [{ type := cmpNodeType.FunctionDefn, parent := none, first_token := some 0,
                last_token := some 12 },
              { type := cmpNodeType.Typedef, parent := some 0, first_token := some 5,
                last_token := some 11 }]
    order := [0, 1] }

/-- The reference `Visit` records for the typedef of `sampleNestedTypedef`. -/
def sampleNestedTypedefRef : TextureRef :=
  { node := some 1, line := 2, keyword_token := some 6, type_token := some 8,
    nb_type_tokens := 1, end_of_type_token := some 9, name_token := none }

/-- The token range that starts at `first` and ends after `last` holds `n`
tokens, none of which passes the test: the tokens reached from `first` in
fewer than `n` steps exist and fail the test, and the range ends with the
last of them, which is `last` or the end of the token sequence. -/
def rangeWithout (tokens : List cmpToken) (test : cmpToken → Bool) (first last : Option Nat)
    (n : Nat) : Prop :=
  (∀ i, i < n → ∃ t, tokenAfter tokens first i = some t ∧ test t = false) ∧
  (nthNext tokens n first = none ∨ (0 < n ∧ nthNext tokens (n - 1) first = last))

/-! ## The destruction of the tokens a texture type created -/

/-- Modelled from the spec: `cmpToken_Destroy` of the token library, whose
token graph has "manual lifetime management": the token is freed.  The heap
keeps the slot; the pointer joins the list of destroyed tokens, in the
order of destruction, and a pointer in that list must not be dereferenced
again. -/
def cmpToken_Destroy (destroyed : List Nat) (token : Nat) : List Nat :=
  destroyed ++ [token]

/-- One of the pointers is to a destroyed token. -/
def pointsAtDestroyed (destroyed : List Nat) (pointers : List (Option Nat)) : Bool :=
  pointers.any (fun p =>
    match p with
    | none => false
    | some i => decide (i ∈ destroyed))

/-- The destructor `~TextureType()` (lines 354-363): the loop
`while (m_FirstToken != 0)` that reads `m_FirstToken->next`, destroys the
token and goes on with the next one.  The result is the list of destroyed
tokens after the loop; there is no result when the loop reaches a token
that is already destroyed or a dangling pointer.  Every step destroys a
token of the heap that was not destroyed before, so a fuel of one more than
the size of the heap is never used up. -/
def TextureType.destructor (tokens : List cmpToken) :
    Nat → Option Nat → List Nat → Option (List Nat)
  | 0, _, _ => none
  | _ + 1, none, destroyed => some destroyed
  | fuel + 1, some p, destroyed =>
    if p ∈ destroyed then none else
    match tokens[p]? with
    | none => none
    | some t => TextureType.destructor tokens fuel t.next (cmpToken_Destroy destroyed p)

/-- The tokens of the input that `AddTypeDeclaration` dereferences before
it looks for the insertion point: `ref.type_token` (line 376), its successor
when the type has two tokens (lines 380-382), and `ref.keyword_token`
(lines 392-393). -/
def TextureType.AddTypeDeclaration.derefs (tokens : List cmpToken) (ref : TextureRef) :
    List (Option Nat) :=
  [ref.type_token] ++
  (if ref.nb_type_tokens > 1 then
     match tokenAt tokens ref.type_token with
     | none => []
     | some type_token => [type_token.next]
   else []) ++
  [ref.keyword_token]

/-- The tokens that `cmpNode_AddBefore` has relinked when
`AddTypeDeclaration` returns `true`: the first token of the anchor node,
which now follows the last token of the declaration, and its former
predecessor, which now precedes the first token of the declaration. -/
def TextureType.AddTypeDeclaration.relinked (self : TextureType) (tokens : List cmpToken) :
    List (Option Nat) :=
  [(match tokenAt tokens self.m_LastToken with
    | none => none
    | some last => last.next),
   (match tokenAt tokens self.m_FirstToken with
    | none => none
    | some first => first.prev)]

/-- The tokens of the input that `ReplaceTypeInstance` dereferences:
`first_token` (line 480), `token->prev`, which is the predecessor of
`first_token` (line 481), `last_token` (line 482), and `token->next`, which
is the successor of `last_token` (line 483). -/
def TextureType.ReplaceTypeInstance.derefs (tokens : List cmpToken) (ref : TextureRef) :
    List (Option Nat) :=
  [ref.keyword_token,
   (match tokenAt tokens ref.keyword_token with
    | none => none
    | some first => first.prev),
   ref.end_of_type_token,
   (match tokenAt tokens ref.end_of_type_token with
    | none => none
    | some last => last.next)]

/-- The loop of lines 561-574 of `Apply` with the lifetime of the local
`texture_type`: `m_TextureTypes.push_back(texture_type)` stores a
member-wise copy, whose `m_FirstToken` is that of the local (the copy of
`m_Name` takes over the text), and the local is destroyed at the end of
the iteration and at `return texture_type.LastError()`; its destructor
destroys the tokens reached from `m_FirstToken`.  At that `return` the text
of `m_Name` is freed with the local; only the name token of the chain, which
is destroyed there too, referred to it.  The last component of the state is
the list of destroyed tokens; a step that dereferences one of them has no
result.  Whether `push_back` moves the elements stored before
to a larger array, which would destroy the old copies too, depends on the
growth policy of the library and is not part of the embedding; it does not
arise while the vector is empty before the call. -/
def TextureTransform.Apply.declareDestroying (cmpHash : String → Nat) :
    TextureRefsMap → TextureTransform → ComputeProcessor → List Nat →
      Option (Option cmpError × TextureTransform × ComputeProcessor × List Nat)
  | [], self, processor, destroyed => some (none, self, processor, destroyed)
  | (key, refs) :: rest, self, processor, destroyed =>
    -- Generate a texture type from the first instance of this texture reference
    match FindFirstTextureRef refs with
    | none => none
    | some first_ref =>
      let texture_type := TextureType.new key
      -- Place a type declaration somewhere before the first node
      if self.m_UniqueTypeIndex ≥ INT_MAX then none else
      let unique_index := self.m_UniqueTypeIndex
      let self := { self with m_UniqueTypeIndex := self.m_UniqueTypeIndex + 1 }
      if pointsAtDestroyed destroyed
          (TextureType.AddTypeDeclaration.derefs processor.tokens first_ref) then none else
      match TextureType.AddTypeDeclaration cmpHash texture_type processor first_ref
          unique_index with
      | none => none
      | some (false, texture_type, processor) =>
        -- return texture_type.LastError(): the local goes out of scope
        match TextureType.destructor processor.tokens (processor.tokens.length + 1)
            texture_type.m_FirstToken destroyed with
        | none => none
        | some destroyed => some (some texture_type.m_LastError, self, processor, destroyed)
      | some (true, texture_type, processor) =>
        if pointsAtDestroyed destroyed
            (TextureType.AddTypeDeclaration.relinked texture_type processor.tokens) then none
        else
        let self := { self with m_TextureTypes := self.m_TextureTypes ++ [texture_type] }
        -- end of the iteration: the local goes out of scope
        match TextureType.destructor processor.tokens (processor.tokens.length + 1)
            texture_type.m_FirstToken destroyed with
        | none => none
        | some destroyed =>
          TextureTransform.Apply.declareDestroying cmpHash rest self processor destroyed

/-- The inner loop of lines 582-586 of `Apply` on a heap with destroyed
tokens: a call of `ReplaceTypeInstance` that dereferences one of them has
no result. -/
def TextureTransform.Apply.replaceRefsChecked (destroyed : List Nat) :
    TextureRefs → TextureType → List cmpToken →
      Option (Option cmpError × TextureType × List cmpToken)
  | [], texture_type, tokens => some (none, texture_type, tokens)
  | ref :: rest, texture_type, tokens =>
    if pointsAtDestroyed destroyed (TextureType.ReplaceTypeInstance.derefs tokens ref) then none
    else
    match TextureType.ReplaceTypeInstance texture_type tokens ref with
    | none => none
    | some (false, texture_type, tokens) =>
      some (some texture_type.m_LastError, texture_type, tokens)
    | some (true, texture_type, tokens) =>
      TextureTransform.Apply.replaceRefsChecked destroyed rest texture_type tokens

/-- The outer loop of lines 577-587 of `Apply` on a heap with destroyed
tokens; the result holds the new states of the texture types. -/
def TextureTransform.Apply.replaceChecked (refs_map : TextureRefsMap) (destroyed : List Nat) :
    List TextureType → List cmpToken →
      Option (Option cmpError × List TextureType × List cmpToken)
  | [], tokens => some (none, [], tokens)
  | texture_type :: rest, tokens =>
    match TextureRefsMap.find refs_map texture_type.m_TextureRefsKey with
    | none => none
    | some refs =>
      match TextureTransform.Apply.replaceRefsChecked destroyed refs texture_type tokens with
      | none => none
      | some (some e, texture_type, tokens) => some (some e, texture_type :: rest, tokens)
      | some (none, texture_type, tokens) =>
        match TextureTransform.Apply.replaceChecked refs_map destroyed rest tokens with
        | none => none
        | some (r, rest, tokens) => some (r, texture_type :: rest, tokens)

/-- `TextureTransform::Apply` with the lifetime of the local `texture_type`
of its first loop, on a translation unit none of whose tokens is destroyed.
The result is the returned error, the new state of the transform, the new
state of the processor and the list of the tokens destroyed during the
call. -/
def TextureTransform.Apply.destroying (cmpHash : String → Nat) (self : TextureTransform)
    (processor : ComputeProcessor) :
    Option (cmpError × TextureTransform × ComputeProcessor × List Nat) :=
  -- Find all texture references
  match VisitNodes (fun ftr node => FindTextureRefs.Visit cmpHash ftr processor node)
      processor.order FindTextureRefs.new with
  | none => none
  | some (false, ftr) => some (ftr.m_LastError, self, processor, [])
  | some (true, ftr) =>
    let refs_map := ftr.m_TextureRefsMap
    if refs_map.length = 0 then some (cmpError.OK, self, processor, []) else
    -- Build a list of all unique texture types introduced
    match TextureTransform.Apply.declareDestroying cmpHash refs_map self processor [] with
    | none => none
    | some (some e, self, processor, destroyed) => some (e, self, processor, destroyed)
    | some (none, self, processor, destroyed) =>
      -- Replace the type of all texture references with the newly generated unique ones
      match TextureTransform.Apply.replaceChecked refs_map destroyed self.m_TextureTypes
          processor.tokens with
      | none => none
      | some (some e, texture_types, tokens) =>
        some (e, { self with m_TextureTypes := texture_types },
          { processor with tokens := tokens }, destroyed)
      | some (none, texture_types, tokens) =>
        some (cmpError.OK, { self with m_TextureTypes := texture_types },
          { processor with tokens := tokens }, destroyed)

/-- Sample: the statement `Texture3Dn<short> tex;` on line 1 and
`typedef Texture2Dn<float> Foo;` on line 2, both at file scope: a
`Statement` node and a `Typedef` node without parent. -/
def sampleStatementThenTypedef : ComputeProcessor :=
  { filename := "a.cl"
    tokens := lexed sampleHash
      [(cmpTokenType.Symbol, "Texture3Dn", 1), (cmpTokenType.LAngle, "<", 1),
       (cmpTokenType.Symbol, "short", 1), (cmpTokenType.RAngle, ">", 1),
       (cmpTokenType.Symbol, "tex", 1), (cmpTokenType.SemiColon, ";", 1),
       (cmpTokenType.Symbol, "typedef", 2), (cmpTokenType.Symbol, "Texture2Dn", 2),
       (cmpTokenType.LAngle, "<", 2), (cmpTokenType.Symbol, "float", 2),
       (cmpTokenType.RAngle, ">", 2), (cmpTokenType.Symbol, "Foo", 2),
       (cmpTokenType.SemiColon, ";", 2)]
    nodes := [{ type := cmpNodeType.Statement, parent := none, first_token := some 0,
                last_token := some 5 },
              { type := cmpNodeType.Typedef, parent := none, first_token := some 6,
                last_token := some 12 }]
    order := [0, 1] }

/-- Sample: the statement `Texture3Dn<short> tex;` at file scope, as one
`Statement` node without parent. -/
def sampleFileScopeStatement : ComputeProcessor :=
  { filename := "b.cl"
    tokens := lexed sampleHash
      [(cmpTokenType.Symbol, "Texture3Dn", 1), (cmpTokenType.LAngle, "<", 1),
       (cmpTokenType.Symbol, "short", 1), (cmpTokenType.RAngle, ">", 1),
       (cmpTokenType.Symbol, "tex", 1), (cmpTokenType.SemiColon, ";", 1)]
    nodes := [{ type := cmpNodeType.Statement, parent := none, first_token := some 0,
                last_token := some 5 }]
    order := [0] }

/-- Sample: a source text that ends in `void f() { Texture2Dn`, with the
keyword on line 2: the keyword is the last token of the sequence and the
only token of its `Statement` node. -/
def sampleKeywordLast : ComputeProcessor :=
  { filename := "a.cl"
    tokens := lexed sampleHash
      [(cmpTokenType.Symbol, "void", 1), (cmpTokenType.Symbol, "f", 1),
       (cmpTokenType.LBracket, "(", 1), (cmpTokenType.RBracket, ")", 1),
       (cmpTokenType.Other, "\x7b", 1), (cmpTokenType.Symbol, "Texture2Dn", 2)]
    nodes := [{ type := cmpNodeType.FunctionDefn, parent := none, first_token := some 0,
                last_token := some 5 },
              { type := cmpNodeType.Statement, parent := some 0, first_token := some 5,
                last_token := some 5 }]
    order := [0, 1] }

/-- Sample: `void f() { Texture2Dn x; }` with the statement on line 2. -/
def sampleNoAngle : ComputeProcessor :=
  { filename := "a.cl"
    tokens := lexed sampleHash
      [(cmpTokenType.Symbol, "void", 1), (cmpTokenType.Symbol, "f", 1),
       (cmpTokenType.LBracket, "(", 1), (cmpTokenType.RBracket, ")", 1),
       (cmpTokenType.Other, "\x7b", 1), (cmpTokenType.Symbol, "Texture2Dn", 2),
       (cmpTokenType.Symbol, "x", 2), (cmpTokenType.SemiColon, ";", 2),
       (cmpTokenType.Other, "\x7d", 3)]
    nodes := [{ type := cmpNodeType.FunctionDefn, parent := none, first_token := some 0,
                last_token := some 8 },
              { type := cmpNodeType.Statement, parent := some 0, first_token := some 5,
                last_token := some 7 }]
    order := [0, 1] }

/-- Sample: a source text that ends in `void f() { Texture1Du<short`, with
the reference on line 2: `short` is the last token of the sequence. -/
def sampleTypeLast : ComputeProcessor :=
  { filename := "a.cl"
    tokens := lexed sampleHash
      [(cmpTokenType.Symbol, "void", 1), (cmpTokenType.Symbol, "f", 1),
       (cmpTokenType.LBracket, "(", 1), (cmpTokenType.RBracket, ")", 1),
       (cmpTokenType.Other, "\x7b", 1), (cmpTokenType.Symbol, "Texture1Du", 2),
       (cmpTokenType.LAngle, "<", 2), (cmpTokenType.Symbol, "short", 2)]
    nodes := [{ type := cmpNodeType.FunctionDefn, parent := none, first_token := some 0,
                last_token := some 7 },
              { type := cmpNodeType.Statement, parent := some 0, first_token := some 5,
                last_token := some 7 }]
    order := [0, 1] }

/-! # Theorems -/

/-! ## FindFirstTextureRef -/

theorem FindFirstTextureRef.loop_keep (l : List TextureRef) :
    ∀ (i : Nat) (found : Option Nat) (fl : Nat), (∀ r ∈ l, fl ≤ r.line) →
      FindFirstTextureRef.loop l i found fl = (found, fl) := by
  induction l with
  | nil => intro i found fl _; rfl
  | cons ref rest ih =>
    intro i found fl h
    have h0 : ¬ ref.line < fl := Nat.not_lt.mpr (h ref (List.mem_cons_self _ _))
    simp only [FindFirstTextureRef.loop, if_neg h0]
    exact ih (i + 1) found fl (fun r hr => h r (List.mem_cons_of_mem _ hr))

theorem FindFirstTextureRef.loop_find (l : List TextureRef) :
    ∀ (i : Nat) (found : Option Nat) (fl : Nat), (∃ r ∈ l, r.line < fl) →
      ∃ k r, l[k]? = some r ∧ FindFirstTextureRef.loop l i found fl = (some (i + k), r.line) ∧
        r.line < fl ∧ (∀ r' ∈ l, r.line ≤ r'.line) ∧
        (∀ j r', j < k → l[j]? = some r' → r.line < r'.line) := by
  induction l with
  | nil => intro i found fl h; obtain ⟨r, hr, _⟩ := h; cases hr
  | cons ref rest ih =>
    intro i found fl h
    by_cases h0 : ref.line < fl
    · simp only [FindFirstTextureRef.loop, if_pos h0]
      by_cases h1 : ∃ r ∈ rest, r.line < ref.line
      · obtain ⟨k, r, hk, hloop, hlt, hmin, hfirst⟩ := ih (i + 1) (some i) ref.line h1
        refine ⟨k + 1, r, by simpa using hk, ?_, lt_trans hlt h0, ?_, ?_⟩
        · rw [hloop]; congr 2; omega
        · intro r' hr'
          rcases List.mem_cons.mp hr' with rfl | hr'
          · exact le_of_lt hlt
          · exact hmin r' hr'
        · intro j r' hj hjr
          cases j with
          | zero => simp at hjr; subst hjr; exact hlt
          | succ j => exact hfirst j r' (by omega) (by simpa using hjr)
      · have h2 : ∀ r ∈ rest, ref.line ≤ r.line := by
          intro r hr
          by_contra hc
          exact h1 ⟨r, hr, Nat.not_le.mp hc⟩
        refine ⟨0, ref, by simp, ?_, h0, ?_, ?_⟩
        · rw [FindFirstTextureRef.loop_keep rest _ _ _ h2]; rfl
        · intro r' hr'
          rcases List.mem_cons.mp hr' with rfl | hr'
          · exact le_refl _
          · exact h2 r' hr'
        · intro j r' hj _; omega
    · simp only [FindFirstTextureRef.loop, if_neg h0]
      have h1 : ∃ r ∈ rest, r.line < fl := by
        obtain ⟨r, hr, hlt⟩ := h
        rcases List.mem_cons.mp hr with rfl | hr
        · exact absurd hlt h0
        · exact ⟨r, hr, hlt⟩
      obtain ⟨k, r, hk, hloop, hlt, hmin, hfirst⟩ := ih (i + 1) found fl h1
      refine ⟨k + 1, r, by simpa using hk, ?_, hlt, ?_, ?_⟩
      · rw [hloop]; congr 2; omega
      · intro r' hr'
        rcases List.mem_cons.mp hr' with rfl | hr'
        · omega
        · exact hmin r' hr'
      · intro j r' hj hjr
        cases j with
        | zero => simp at hjr; subst hjr; omega
        | succ j => exact hfirst j r' (by omega) (by simpa using hjr)

/-- For every list of occurrences in which some line is below `UINT_MAX`,
`FindFirstTextureRef` returns an element of the list whose line is the
minimum of all lines in the list, and among the elements with that line the
one with the lowest index. -/
theorem FindFirstTextureRef_min_first (refs : TextureRefs)
    (h : ∃ r ∈ refs, r.line < UINT_MAX) :
    ∃ i r, refs[i]? = some r ∧ FindFirstTextureRef.index refs = some i ∧
      FindFirstTextureRef refs = some r ∧
      (∀ r' ∈ refs, r.line ≤ r'.line) ∧
      (∀ j r', refs[j]? = some r' → r'.line = r.line → i ≤ j) := by
  obtain ⟨k, r, hk, hloop, _, hmin, hfirst⟩ :=
    FindFirstTextureRef.loop_find refs 0 none UINT_MAX h
  have hidx : FindFirstTextureRef.index refs = some k := by
    simp [FindFirstTextureRef.index, hloop]
  refine ⟨k, r, hk, hidx, ?_, hmin, ?_⟩
  · simp [FindFirstTextureRef, hidx, hk]
  · intro j r' hj hline
    by_contra hc
    have := hfirst j r' (Nat.not_le.mp hc) hj
    omega

/-- C7, evaluated: for the non-empty list whose only occurrence is on line
`UINT_MAX` the test `ref.line < first_line` against the initial value
`UINT_MAX` of `first_line` never holds, `found_ref` stays null and the
assertion `found_ref != 0` fails: no element of the list is returned.  For
occurrences on lines 10 and 4 the occurrence on line 4 is returned. -/
theorem FindFirstTextureRef_all_UINT_MAX :
    [sampleRef UINT_MAX] ≠ [] ∧
    FindFirstTextureRef.index [sampleRef UINT_MAX] = none ∧
    FindFirstTextureRef [sampleRef UINT_MAX] = none ∧
    (¬ ∃ r ∈ [sampleRef UINT_MAX], FindFirstTextureRef [sampleRef UINT_MAX] = some r) ∧
    FindFirstTextureRef [sampleRef 10, sampleRef 4] = some (sampleRef 4) := by
  refine ⟨?_, ?_, ?_, ?_, ?_⟩ <;> decide

theorem TokenIterator.seekLoop_found (tokens : List cmpToken) (matcher : cmpToken → Bool)
    (last : Option Nat) (p : Nat) :
    ∀ (fuel : Nat) (cur : Option Nat),
      TokenIterator.seekLoop tokens matcher last fuel cur = some (some p) →
      ∃ t, tokens[p]? = some t ∧ matcher t = true := by
  intro fuel
  induction fuel with
  | zero => intro cur h; simp [TokenIterator.seekLoop] at h
  | succ fuel ih =>
    intro cur h
    cases cur with
    | none => simp [TokenIterator.seekLoop] at h
    | some q =>
      simp only [TokenIterator.seekLoop] at h
      cases hq : tokens[q]? with
      | none => simp [hq] at h
      | some t =>
        simp only [hq] at h
        by_cases hm : matcher t = true
        · simp only [hm, if_true, Option.some.injEq] at h
          subst h
          exact ⟨t, hq, hm⟩
        · simp only [hm, if_false] at h
          by_cases hl : some q = last
          · simp [hl] at h
          · simp only [hl, if_false] at h
            exact ih _ h

theorem TokenIterator.SeekToken_found (tokens : List cmpToken) (it it1 : TokenIterator)
    (matcher : cmpToken → Bool) (p : Nat)
    (h : TokenIterator.SeekToken tokens it matcher = some (it1, some p)) :
    it1.token = some p ∧ ∃ t, tokens[p]? = some t ∧ matcher t = true := by
  simp only [TokenIterator.SeekToken] at h
  split at h
  · cases h
  · rename_i r hr
    simp only [Option.some.injEq, Prod.mk.injEq] at h
    obtain ⟨h1, h2⟩ := h
    subst h2
    exact ⟨by rw [← h1], TokenIterator.seekLoop_found _ _ _ _ _ _ hr⟩

theorem typeMatches_eq (cmpHash : String → Nat) (t : cmpToken) :
    (m_TypeMatches cmpHash).Match t =
      (isTexelTypeName cmpHash t || isSignednessQualifier cmpHash t) := by
  simp only [MatchHashes.Match, m_TypeMatches, isTexelTypeName, isSignednessQualifier]
  rw [Bool.eq_iff_iff]
  simp only [List.mem_cons, List.mem_singleton, decide_eq_true_eq, Bool.or_eq_true, List.not_mem_nil, or_false]
  tauto

theorem isSignedness_eq (cmpHash : String → Nat) (t : cmpToken) :
    isSignedness cmpHash t.hash = isSignednessQualifier cmpHash t := by
  simp only [isSignedness, isSignednessQualifier]
  rw [Bool.eq_iff_iff]
  simp

theorem tokenAfter_zero (tokens : List cmpToken) (p : Option Nat) :
    tokenAfter tokens p 0 = tokenAt tokens p := rfl

theorem tokenAfter_succ (tokens : List cmpToken) (p : Option Nat) (t : cmpToken) (n : Nat)
    (h : tokenAt tokens p = some t) :
    tokenAfter tokens p (n + 1) = tokenAfter tokens t.next n := by
  simp [tokenAfter, nthNext, h]

theorem nthNext_succ (tokens : List cmpToken) (p : Option Nat) (t : cmpToken) (n : Nat)
    (h : tokenAt tokens p = some t) :
    nthNext tokens (n + 1) p = nthNext tokens n t.next := by
  simp [nthNext, h]

theorem nthNext_zero (tokens : List cmpToken) (p : Option Nat) :
    nthNext tokens 0 p = p := rfl

theorem tokenAfter_none (tokens : List cmpToken) (n : Nat) :
    tokenAfter tokens none n = none := by
  cases n <;> simp [tokenAfter, nthNext, tokenAt]

theorem tokenAfter_succ_none (tokens : List cmpToken) (p : Option Nat) (n : Nat)
    (h : tokenAt tokens p = none) :
    tokenAfter tokens p (n + 1) = none := by
  simp only [tokenAfter, nthNext, h]
  rfl

theorem FindTextureRefs.Visit.close_outcome (self : FindTextureRefs)
    (processor : ComputeProcessor) (node : cmpNode) (ref : TextureRef) (combined_hash : Nat)
    (iterator : TokenIterator) :
    (tokenIs (tokenAfter processor.tokens iterator.token 0)
        (fun t => decide (t.type = cmpTokenType.RAngle)) = true ∧
      (node.type = cmpNodeType.FunctionParams →
        tokenIs (tokenAfter processor.tokens iterator.token 1)
          (fun t => decide (t.type = cmpTokenType.Symbol)) = true) ∧
      FindTextureRefs.Visit.close self processor node ref combined_hash iterator =
        some (true, { self with
          m_TextureRefsMap := TextureRefsMap.push self.m_TextureRefsMap combined_hash
            { ref with
              end_of_type_token := iterator.token
              name_token := if node.type = cmpNodeType.FunctionParams then
                nthNext processor.tokens 1 iterator.token else ref.name_token } })) ∨
    ((tokenIs (tokenAfter processor.tokens iterator.token 0)
        (fun t => decide (t.type = cmpTokenType.RAngle)) = false ∨
      (node.type = cmpNodeType.FunctionParams ∧
        tokenIs (tokenAfter processor.tokens iterator.token 1)
          (fun t => decide (t.type = cmpTokenType.Symbol)) = false)) ∧
      ((FindTextureRefs.Visit.close self processor node ref combined_hash iterator = none ∧
          ∃ i, i ≤ 1 ∧ tokenAfter processor.tokens iterator.token i = none) ∨
        ∃ i t fmt, i ≤ 1 ∧ tokenAfter processor.tokens iterator.token i = some t ∧
          fmt ∈ visitFormats ∧
          FindTextureRefs.Visit.close self processor node ref combined_hash iterator =
            some (false, stoppedAt self processor fmt t))) := by
  simp only [FindTextureRefs.Visit.close, TokenIterator.ExpectToken, TokenIterator.advance,
    FindTextureRefs.fail, MatchTypes.Match, tokenAfter_zero, stoppedAt]
  cases h0 : tokenAt processor.tokens iterator.token with
  | none =>
    exact Or.inr ⟨Or.inl (by simp [tokenIs]), Or.inl ⟨by simp, 0, by omega, by simp [tokenAfter_zero, h0]⟩⟩
  | some c =>
    have e1 := tokenAfter_succ processor.tokens iterator.token c 0 h0
    have n1 := nthNext_succ processor.tokens iterator.token c 0 h0
    simp only [Nat.reduceAdd, tokenAfter_zero] at e1
    simp only [Nat.reduceAdd, nthNext_zero] at n1
    have hcn : iterator.token ≠ none := by
      intro hc; rw [hc] at h0; simp [tokenAt] at h0
    by_cases hc : c.type = cmpTokenType.RAngle
    swap
    · refine Or.inr ⟨Or.inl (by simp [tokenIs, hc]), Or.inr ⟨0, c, "%s(%d): Expecting '>'", by omega, by simp [tokenAfter_zero, h0],
          by simp [visitFormats], by simp [hc]⟩⟩
    by_cases hp : node.type = cmpNodeType.FunctionParams
    swap
    · exact Or.inl ⟨by simp [tokenIs, hc], by simp [hp], by simp [hc, hcn, hp]⟩
    cases h1 : tokenAt processor.tokens c.next with
    | none =>
      exact Or.inr ⟨Or.inr ⟨hp, by simp [e1, h1, tokenIs]⟩,
        Or.inl ⟨by simp [hc, hcn, hp, h1], 1, by omega, by rw [e1, h1]⟩⟩
    | some d =>
      have hdn : c.next ≠ none := by
        intro hc; rw [hc] at h1; simp [tokenAt] at h1
      by_cases hd : d.type = cmpTokenType.Symbol
      · exact Or.inl ⟨by simp [tokenIs, hc], by simp [e1, h1, tokenIs, hd],
          by simp [hc, hcn, hp, h1, hd, hdn, n1]⟩
      · refine Or.inr ⟨Or.inr ⟨hp, by simp [e1, h1, tokenIs, hd]⟩,
          Or.inr ⟨1, d, "%s(%d): Expecting function parameter to have a name", by omega,
            by rw [e1, h1], by simp [visitFormats], by simp [hc, hcn, hp, h1, hd]⟩⟩


/-- What `Visit.parse` computes, by cases on the tokens after the keyword. -/
theorem FindTextureRefs.Visit.parse_outcome (cmpHash : String → Nat)
    (hapart : SignednessHashesApart cmpHash)
    (self : FindTextureRefs) (processor : ComputeProcessor) (node_ptr : Nat) (node : cmpNode)
    (iterator : TokenIterator) (kw : Nat) (keyword : cmpToken)
    (hit : iterator.token = some kw) (hkw : processor.tokens[kw]? = some keyword) :
    (followsPlain cmpHash processor.tokens (decide (node.type = cmpNodeType.FunctionParams))
        (some kw) = true ∧
      followsQualified cmpHash processor.tokens
        (decide (node.type = cmpNodeType.FunctionParams)) (some kw) = false ∧
      FindTextureRefs.Visit.parse cmpHash self processor node_ptr node iterator =
        some (true, { self with
          m_TextureRefsMap := TextureRefsMap.push self.m_TextureRefsMap
            (keyPlain processor.tokens (some kw))
            (recordedPlain processor.tokens node_ptr
              (decide (node.type = cmpNodeType.FunctionParams)) (some kw)) })) ∨
    (followsPlain cmpHash processor.tokens (decide (node.type = cmpNodeType.FunctionParams))
        (some kw) = false ∧
      followsQualified cmpHash processor.tokens
        (decide (node.type = cmpNodeType.FunctionParams)) (some kw) = true ∧
      FindTextureRefs.Visit.parse cmpHash self processor node_ptr node iterator =
        some (true, { self with
          m_TextureRefsMap := TextureRefsMap.push self.m_TextureRefsMap
            (keyQualified processor.tokens (some kw))
            (recordedQualified processor.tokens node_ptr
              (decide (node.type = cmpNodeType.FunctionParams)) (some kw)) })) ∨
    (followsPlain cmpHash processor.tokens (decide (node.type = cmpNodeType.FunctionParams))
        (some kw) = false ∧
      followsQualified cmpHash processor.tokens
        (decide (node.type = cmpNodeType.FunctionParams)) (some kw) = false ∧
      ((FindTextureRefs.Visit.parse cmpHash self processor node_ptr node iterator = none ∧
          ∃ i, i ≤ 5 ∧ tokenAfter processor.tokens (some kw) i = none) ∨
        ∃ i t fmt, 1 ≤ i ∧ i ≤ 5 ∧ tokenAfter processor.tokens (some kw) i = some t ∧
          fmt ∈ visitFormats ∧
          FindTextureRefs.Visit.parse cmpHash self processor node_ptr node iterator =
            some (false, stoppedAt self processor fmt t))) := by
  have hk : tokenAt processor.tokens (some kw) = some keyword := hkw
  -- the token after the keyword
  cases h1 : tokenAt processor.tokens keyword.next with
  | none =>
    refine Or.inr (Or.inr ⟨?_, ?_, Or.inl ⟨?_, 1, by omega, ?_⟩⟩)
    · simp [followsPlain, tokenAfter, nthNext, hk, h1, tokenIs]
    · simp [followsQualified, tokenAfter, nthNext, hk, h1, tokenIs]
    · simp [FindTextureRefs.Visit.parse, hit, hk, TokenIterator.advance, h1,
        TokenIterator.ExpectToken, FindTextureRefs.fail]
    · simp [tokenAfter, nthNext, hk, h1]
  | some a =>
  by_cases ha : a.type = cmpTokenType.LAngle
  swap
  · refine Or.inr (Or.inr ⟨?_, ?_, Or.inr ⟨1, a, "%s(%d): Expecting '<'", by omega, by omega,
      ?_, by simp [visitFormats], ?_⟩⟩)
    · simp [followsPlain, tokenAfter, nthNext, hk, h1, tokenIs, ha]
    · simp [followsQualified, tokenAfter, nthNext, hk, h1, tokenIs, ha]
    · simp [tokenAfter, nthNext, hk, h1]
    · simp [FindTextureRefs.Visit.parse, hit, hk, TokenIterator.advance, h1,
        TokenIterator.ExpectToken, FindTextureRefs.fail, MatchTypes.Match, ha, stoppedAt]
  obtain ⟨i1, hn1⟩ : ∃ i, keyword.next = some i := by
    cases hc : keyword.next with
    | none => rw [hc] at h1; simp [tokenAt] at h1
    | some i => exact ⟨i, rfl⟩
  rw [hn1] at h1
  -- the first type token
  cases h2 : tokenAt processor.tokens a.next with
  | none =>
    refine Or.inr (Or.inr ⟨?_, ?_, Or.inl ⟨?_, 2, by omega, ?_⟩⟩)
    · simp [followsPlain, tokenAfter, nthNext, hk, hn1, h1, h2, tokenIs]
    · simp [followsQualified, tokenAfter, nthNext, hk, hn1, h1, h2, tokenIs]
    · simp [FindTextureRefs.Visit.parse, hit, hk, TokenIterator.advance, hn1, h1, h2,
        TokenIterator.ExpectToken, FindTextureRefs.fail, MatchTypes.Match, ha]
    · simp [tokenAfter, nthNext, hk, hn1, h1, h2]
  | some b =>
  obtain ⟨i2, hn2⟩ : ∃ i, a.next = some i := by
    cases hc : a.next with
    | none => rw [hc] at h2; simp [tokenAt] at h2
    | some i => exact ⟨i, rfl⟩
  rw [hn2] at h2
  by_cases hbt : (m_TypeMatches cmpHash).Match b = true
  swap
  · have hbt1 := hbt
    rw [typeMatches_eq] at hbt1
    simp only [Bool.or_eq_true, not_or, Bool.not_eq_true] at hbt1
    refine Or.inr (Or.inr ⟨?_, ?_, Or.inr ⟨2, b, "%s(%d): Expecting a type name", by omega,
      by omega, ?_, by simp [visitFormats], ?_⟩⟩)
    · simp [followsPlain, tokenAfter, nthNext, hk, hn1, h1, hn2, h2, tokenIs, hbt1.1]
    · simp [followsQualified, tokenAfter, nthNext, hk, hn1, h1, hn2, h2, tokenIs, hbt1.2]
    · simp [tokenAfter, nthNext, hk, hn1, h1, hn2, h2]
    · simp [FindTextureRefs.Visit.parse, hit, hk, TokenIterator.advance, hn1, h1, hn2, h2,
        TokenIterator.ExpectToken, FindTextureRefs.fail, MatchTypes.Match, ha, hbt,
        stoppedAt]
  have hbt1 := hbt
  rw [typeMatches_eq] at hbt1
  cases hbs : isSignednessQualifier cmpHash b with
  | false =>
    -- no signedness qualifier
    have hbx : isTexelTypeName cmpHash b = true := by
      simpa [hbs] using hbt1
    have hR : FindTextureRefs.Visit.parse cmpHash self processor node_ptr node iterator =
        FindTextureRefs.Visit.close self processor node
          { node := some node_ptr, line := keyword.line, keyword_token := some kw,
            type_token := some i2, nb_type_tokens := 1, end_of_type_token := none,
            name_token := none }
          (CombineHash keyword.hash b.hash)
          { first_token := iterator.first_token, last_token := iterator.last_token,
            token := b.next } := by
      simp [FindTextureRefs.Visit.parse, hit, hk, TokenIterator.advance, hn1, h1, hn2, h2,
        TokenIterator.ExpectToken, MatchTypes.Match, ha, hbt, isSignedness_eq, hbs]
    have hQ : followsQualified cmpHash processor.tokens
        (decide (node.type = cmpNodeType.FunctionParams)) (some kw) = false := by
      simp [followsQualified, tokenAfter, nthNext, hk, hn1, h1, hn2, h2, tokenIs, hbs]
    rw [hR]
    rcases FindTextureRefs.Visit.close_outcome self processor node
        { node := some node_ptr, line := keyword.line, keyword_token := some kw,
          type_token := some i2, nb_type_tokens := 1, end_of_type_token := none,
          name_token := none }
        (CombineHash keyword.hash b.hash)
        { first_token := iterator.first_token, last_token := iterator.last_token,
          token := b.next } with ⟨hc, hd, hres⟩ | ⟨hbad, hres⟩
    · refine Or.inl ⟨?_, hQ, ?_⟩
      · simp only [followsPlain, tokenAfter, nthNext, hk, hn1, h1, hn2, h2, tokenIs, ha, hbx] at hc hd ⊢
        by_cases hp : node.type = cmpNodeType.FunctionParams
        · simp [hc, hd hp, hp]
        · simp [hc, hp]
      · rw [hres]
        simp [keyPlain, recordedPlain, tokenAfter, nthNext, hk, hn1, h1, hn2, h2, hashOf, lineOf]
    · refine Or.inr (Or.inr ⟨?_, hQ, ?_⟩)
      · simp only [followsPlain, tokenAfter, nthNext, hk, hn1, h1, hn2, h2, tokenIs, ha, hbx] at hbad ⊢
        rcases hbad with hbad | ⟨hp, hbad⟩
        · simp [hbad]
        · simp [hbad, hp]
      · rcases hres with ⟨hres, i, hi, hnone⟩ | ⟨i, t, fmt, hi, hsome, hfmt, hres⟩
        · refine Or.inl ⟨hres, i + 3, by omega, ?_⟩
          have hi2 : i = 0 ∨ i = 1 := by omega
          rcases hi2 with rfl | rfl
          · simpa [tokenAfter, nthNext, hk, hn1, h1, hn2, h2] using hnone
          · simpa [tokenAfter, nthNext, hk, hn1, h1, hn2, h2] using hnone
        · refine Or.inr ⟨i + 3, t, fmt, by omega, by omega, ?_, hfmt, hres⟩
          have hi2 : i = 0 ∨ i = 1 := by omega
          rcases hi2 with rfl | rfl
          · simpa [tokenAfter, nthNext, hk, hn1, h1, hn2, h2] using hsome
          · simpa [tokenAfter, nthNext, hk, hn1, h1, hn2, h2] using hsome
  | true =>
    -- a signedness qualifier: the rest of the type name is expected
    have hbx : isTexelTypeName cmpHash b = false := hapart b hbs
    have hP : followsPlain cmpHash processor.tokens
        (decide (node.type = cmpNodeType.FunctionParams)) (some kw) = false := by
      simp [followsPlain, tokenAfter, nthNext, hk, hn1, h1, hn2, h2, tokenIs, hbx]
    cases h3 : tokenAt processor.tokens b.next with
    | none =>
      refine Or.inr (Or.inr ⟨hP, ?_, Or.inl ⟨?_, 3, by omega, ?_⟩⟩)
      · simp [followsQualified, tokenAfter, nthNext, hk, hn1, h1, hn2, h2, h3, tokenIs]
      · simp [FindTextureRefs.Visit.parse, hit, hk, TokenIterator.advance, hn1, h1, hn2, h2, h3,
          TokenIterator.ExpectToken, FindTextureRefs.fail, MatchTypes.Match, ha, hbt,
          isSignedness_eq, hbs]
      · simp [tokenAfter, nthNext, hk, hn1, h1, hn2, h2, h3]
    | some c =>
    obtain ⟨i3, hn3⟩ : ∃ i, b.next = some i := by
      cases hc : b.next with
      | none => rw [hc] at h3; simp [tokenAt] at h3
      | some i => exact ⟨i, rfl⟩
    rw [hn3] at h3
    by_cases hct : (m_TypeMatches cmpHash).Match c = true
    swap
    · have hct1 := hct
      rw [typeMatches_eq] at hct1
      simp only [Bool.or_eq_true, not_or, Bool.not_eq_true] at hct1
      refine Or.inr (Or.inr ⟨hP, ?_, Or.inr ⟨3, c,
        "%s(%d): Expecting a type name after unsigned/signed", by omega,
        by omega, ?_, by simp [visitFormats], ?_⟩⟩)
      · simp [followsQualified, tokenAfter, nthNext, hk, hn1, h1, hn2, h2, hn3, h3, tokenIs,
          hct1.1]
      · simp [tokenAfter, nthNext, hk, hn1, h1, hn2, h2, hn3, h3]
      · simp [FindTextureRefs.Visit.parse, hit, hk, TokenIterator.advance, hn1, h1, hn2, h2,
          hn3, h3, TokenIterator.ExpectToken, FindTextureRefs.fail, MatchTypes.Match, ha, hbt,
          isSignedness_eq, hbs, hct, stoppedAt]
    cases hcs : isSignednessQualifier cmpHash c with
    | true =>
      have hcx : isTexelTypeName cmpHash c = false := hapart c hcs
      refine Or.inr (Or.inr ⟨hP, ?_, Or.inr ⟨3, c,
        "%s(%d): Not expecting unsigned/signed twice", by omega,
        by omega, ?_, by simp [visitFormats], ?_⟩⟩)
      · simp [followsQualified, tokenAfter, nthNext, hk, hn1, h1, hn2, h2, hn3, h3, tokenIs,
          hcx]
      · simp [tokenAfter, nthNext, hk, hn1, h1, hn2, h2, hn3, h3]
      · simp [FindTextureRefs.Visit.parse, hit, hk, TokenIterator.advance, hn1, h1, hn2, h2,
          hn3, h3, TokenIterator.ExpectToken, FindTextureRefs.fail, MatchTypes.Match, ha, hbt,
          isSignedness_eq, hbs, hct, hcs, stoppedAt]
    | false =>
      have hcx : isTexelTypeName cmpHash c = true := by
        have hct1 := hct
        rw [typeMatches_eq] at hct1
        simpa [hcs] using hct1
      have hR : FindTextureRefs.Visit.parse cmpHash self processor node_ptr node iterator =
          FindTextureRefs.Visit.close self processor node
            { node := some node_ptr, line := keyword.line, keyword_token := some kw,
              type_token := some i2, nb_type_tokens := 2, end_of_type_token := none,
              name_token := none }
            (CombineHash (CombineHash keyword.hash b.hash) c.hash)
            { first_token := iterator.first_token, last_token := iterator.last_token,
              token := c.next } := by
        simp [FindTextureRefs.Visit.parse, hit, hk, TokenIterator.advance, hn1, h1, hn2, h2,
          hn3, h3, TokenIterator.ExpectToken, MatchTypes.Match, ha, hbt, isSignedness_eq, hbs,
          hct, hcs]
      rw [hR]
      rcases FindTextureRefs.Visit.close_outcome self processor node
          { node := some node_ptr, line := keyword.line, keyword_token := some kw,
            type_token := some i2, nb_type_tokens := 2, end_of_type_token := none,
            name_token := none }
          (CombineHash (CombineHash keyword.hash b.hash) c.hash)
          { first_token := iterator.first_token, last_token := iterator.last_token,
            token := c.next } with ⟨hc, hd, hres⟩ | ⟨hbad, hres⟩
      · refine Or.inr (Or.inl ⟨hP, ?_, ?_⟩)
        · simp only [followsQualified, tokenAfter, nthNext, hk, hn1, h1, hn2, h2, hn3, h3,
            tokenIs, ha, hbs, hcx] at hc hd ⊢
          by_cases hp : node.type = cmpNodeType.FunctionParams
          · simp [hc, hd hp, hp]
          · simp [hc, hp]
        · rw [hres]
          simp [keyQualified, recordedQualified, tokenAfter, nthNext, hk, hn1, h1, hn2, h2,
            hn3, h3, hashOf, lineOf]
      · refine Or.inr (Or.inr ⟨hP, ?_, ?_⟩)
        · simp only [followsQualified, tokenAfter, nthNext, hk, hn1, h1, hn2, h2, hn3, h3,
            tokenIs, ha, hbs, hcx] at hbad ⊢
          rcases hbad with hbad | ⟨hp, hbad⟩
          · simp [hbad]
          · simp [hbad, hp]
        · rcases hres with ⟨hres, i, hi, hnone⟩ | ⟨i, t, fmt, hi, hsome, hfmt, hres⟩
          · refine Or.inl ⟨hres, i + 4, by omega, ?_⟩
            have hi2 : i = 0 ∨ i = 1 := by omega
            rcases hi2 with rfl | rfl
            · simpa [tokenAfter, nthNext, hk, hn1, h1, hn2, h2, hn3, h3] using hnone
            · simpa [tokenAfter, nthNext, hk, hn1, h1, hn2, h2, hn3, h3] using hnone
          · refine Or.inr ⟨i + 4, t, fmt, by omega, by omega, ?_, hfmt, hres⟩
            have hi2 : i = 0 ∨ i = 1 := by omega
            rcases hi2 with rfl | rfl
            · simpa [tokenAfter, nthNext, hk, hn1, h1, hn2, h2, hn3, h3] using hsome
            · simpa [tokenAfter, nthNext, hk, hn1, h1, hn2, h2, hn3, h3] using hsome

/-! ## AddTypeDeclaration: the insertion point -/

theorem findFunctionNode_nearest (nodes : List cmpNode) (nw : cmpNode)
    (hnw : nw.type ≠ cmpNodeType.FunctionDefn ∧ nw.type ≠ cmpNodeType.FunctionDecl)
    (hpar : nw.parent = none) (a : Nat) :
    ∀ (fuel : Nat) (p : Option Nat),
      findFunctionNode (nodes ++ [nw]) fuel p = some (some a) →
      ∃ n, nthParent nodes n p = some a ∧ isFunctionNode nodes (some a) = true ∧
        ∀ m, m < n → isFunctionNode nodes (nthParent nodes m p) = false := by
  intro fuel
  induction fuel with
  | zero => intro p h; simp [findFunctionNode] at h
  | succ fuel ih =>
    intro p h
    cases p with
    | none => simp [findFunctionNode] at h
    | some q =>
      simp only [findFunctionNode] at h
      rcases Nat.lt_trichotomy q nodes.length with hq | hq | hq
      · have hget : (nodes ++ [nw])[q]? = nodes[q]? := List.getElem?_append_left hq
        rw [hget] at h
        cases hn : nodes[q]? with
        | none => simp [hn] at h
        | some nd =>
          simp only [hn] at h
          by_cases hty : nd.type ≠ cmpNodeType.FunctionDefn ∧ nd.type ≠ cmpNodeType.FunctionDecl
          · rw [if_pos hty] at h
            obtain ⟨n, h1, h2, h3⟩ := ih nd.parent h
            refine ⟨n + 1, by simpa [nthParent, nodeAt, hn] using h1, h2, ?_⟩
            intro m hm
            cases m with
            | zero => simp [nthParent, isFunctionNode, nodeAt, hn, hty.1, hty.2]
            | succ m =>
              have := h3 m (by omega)
              simpa [nthParent, nodeAt, hn] using this
          · rw [if_neg hty] at h
            simp only [Option.some.injEq] at h
            subst h
            refine ⟨0, rfl, ?_, fun m hm => absurd hm (Nat.not_lt_zero m)⟩
            simp only [isFunctionNode, nodeAt, hn, Bool.or_eq_true, decide_eq_true_eq]
            by_contra hc
            exact hty ⟨fun h => hc (Or.inl h), fun h => hc (Or.inr h)⟩
      · have hget : (nodes ++ [nw])[q]? = some nw := by
          rw [hq]; simp
        rw [hget] at h
        simp only [] at h
        rw [if_pos hnw, hpar] at h
        cases fuel with
        | zero => simp [findFunctionNode] at h
        | succ fuel => simp [findFunctionNode] at h
      · have hget : (nodes ++ [nw])[q]? = none := by
          apply List.getElem?_eq_none
          simp; omega
        rw [hget] at h
        simp at h

theorem cmpNode_AddBefore_order (processor processor1 : ComputeProcessor) (node x : Nat)
    (h : cmpNode_AddBefore processor node x = some processor1) :
    processor1.order = insertBefore node x processor.order ∧
    processor1.filename = processor.filename ∧
    processor1.nodes.length = processor.nodes.length ∧
    (∃ a n, processor.nodes[node]? = some a ∧ processor.nodes[x]? = some n ∧
      processor1.nodes = processor.nodes.set x { n with parent := a.parent }) := by
  unfold cmpNode_AddBefore at h
  split at h
  · rename_i a n ha hn
    split at h
    · cases h
    · simp only [Option.some.injEq] at h
      subst h
      exact ⟨rfl, rfl, by simp, a, n, ha, hn, rfl⟩
  · cases h

theorem insertBefore_split (anchor x : Nat) (l1 l2 : List Nat) (h : anchor ∉ l1) :
    insertBefore anchor x (l1 ++ anchor :: l2) = l1 ++ x :: anchor :: l2 := by
  induction l1 with
  | nil => simp [insertBefore]
  | cons n rest ih =>
    have hn : n ≠ anchor := fun hc => h (by simp [hc])
    have hr : anchor ∉ rest := fun hc => h (List.mem_cons_of_mem _ hc)
    simp [insertBefore, hn, ih hr]

theorem nthParent_owner (nodes : List cmpNode) (n p a : Nat)
    (h1 : nthParent nodes n (some p) = some a) (h2 : isFunctionNode nodes (some a) = true) :
    ∃ owner, nodes[p]? = some owner := by
  cases n with
  | zero =>
    simp only [nthParent, Option.some.injEq] at h1
    subst h1
    simp only [isFunctionNode, nodeAt] at h2
    cases hp : nodes[p]? with
    | none => simp [hp] at h2
    | some owner => exact ⟨owner, rfl⟩
  | succ n =>
    simp only [nthParent, nodeAt] at h1
    cases hp : nodes[p]? with
    | none => simp [hp] at h1
    | some owner => exact ⟨owner, rfl⟩

theorem set_append_singleton (nodes : List cmpNode) (a b : cmpNode) :
    (nodes ++ [a]).set nodes.length b = nodes ++ [b] := by
  induction nodes with
  | nil => rfl
  | cons n rest ih => simp [List.set, ih]

theorem isFunctionNode_node (nodes : List cmpNode) (a : Nat)
    (h : isFunctionNode nodes (some a) = true) :
    ∃ nd, nodes[a]? = some nd ∧
      (nd.type = cmpNodeType.FunctionDefn ∨ nd.type = cmpNodeType.FunctionDecl) := by
  simp only [isFunctionNode, nodeAt] at h
  cases ha : nodes[a]? with
  | none => simp [ha] at h
  | some nd =>
    simp only [ha, Bool.or_eq_true, decide_eq_true_eq] at h
    exact ⟨nd, rfl, h⟩

theorem insertBeforeNode_found (nodes : List cmpNode) (nw : cmpNode)
    (hty : nw.type = cmpNodeType.UserTokens) (hpar : nw.parent = none)
    (ref_node : Option Nat) (anchor : Nat)
    (h : insertBeforeNode (nodes ++ [nw]) ref_node = some (some anchor)) :
    ∃ owner_ptr owner anchor_node,
      ref_node = some owner_ptr ∧ nodes[owner_ptr]? = some owner ∧
      nodes[anchor]? = some anchor_node ∧
      (owner.type = cmpNodeType.Typedef → anchor = owner_ptr) ∧
      (owner.type ≠ cmpNodeType.Typedef →
        ∃ n, nthParent nodes n (some owner_ptr) = some anchor ∧
          isFunctionNode nodes (some anchor) = true ∧
          ∀ m, m < n → isFunctionNode nodes (nthParent nodes m (some owner_ptr)) = false) := by
  have hnw : nw.type ≠ cmpNodeType.FunctionDefn ∧ nw.type ≠ cmpNodeType.FunctionDecl := by
    rw [hty]; exact ⟨by decide, by decide⟩
  cases ref_node with
  | none => simp [insertBeforeNode] at h
  | some p =>
    simp only [insertBeforeNode] at h
    cases hp : (nodes ++ [nw])[p]? with
    | none => simp [hp] at h
    | some nd =>
      simp only [hp] at h
      by_cases htd : nd.type ≠ cmpNodeType.Typedef
      · rw [if_pos htd] at h
        obtain ⟨n, h1, h2, h3⟩ := findFunctionNode_nearest nodes nw hnw hpar anchor _ _ h
        obtain ⟨owner, ho⟩ := nthParent_owner nodes n p anchor h1 h2
        obtain ⟨anchor_node, ha, _⟩ := isFunctionNode_node nodes anchor h2
        have hlt : p < nodes.length := (List.getElem?_eq_some_iff.mp ho).1
        have hnd : nd = owner := by
          rw [List.getElem?_append_left hlt, ho] at hp
          exact (Option.some.inj hp).symm
        subst hnd
        exact ⟨p, nd, anchor_node, rfl, ho, ha, fun hc => absurd hc htd, fun _ => ⟨n, h1, h2, h3⟩⟩
      · rw [if_neg htd] at h
        simp only [Option.some.injEq] at h
        subst h
        have htd1 : nd.type = cmpNodeType.Typedef := by
          by_contra hc; exact htd hc
        have hlt : p < nodes.length := by
          rcases Nat.lt_trichotomy p nodes.length with hq | hq | hq
          · exact hq
          · subst hq
            simp only [List.getElem?_concat_length, Option.some.injEq] at hp
            subst hp
            rw [hty] at htd1
            cases htd1
          · have : (nodes ++ [nw])[p]? = none := by
              apply List.getElem?_eq_none
              simp; omega
            rw [this] at hp
            cases hp
        rw [List.getElem?_append_left hlt] at hp
        exact ⟨p, nd, nd, rfl, hp, hp, fun _ => rfl, fun hc => absurd htd1 hc⟩

theorem TextureType.AddTypeDeclaration_inserted (cmpHash : String → Nat) (self : TextureType)
    (processor : ComputeProcessor) (ref : TextureRef) (unique_index : Nat)
    (self1 : TextureType) (processor1 : ComputeProcessor)
    (h : TextureType.AddTypeDeclaration cmpHash self processor ref unique_index =
      some (true, self1, processor1)) :
    ∃ owner_ptr owner anchor anchor_node,
      ref.node = some owner_ptr ∧ processor.nodes[owner_ptr]? = some owner ∧
      processor.nodes[anchor]? = some anchor_node ∧
      (∀ l1 l2, processor.order = l1 ++ anchor :: l2 → anchor ∉ l1 →
        processor1.order = l1 ++ processor.nodes.length :: anchor :: l2) ∧
      processor1.nodes = processor.nodes ++
        [{ type := cmpNodeType.UserTokens, parent := anchor_node.parent,
           first_token := self1.m_FirstToken, last_token := self1.m_LastToken }] ∧
      (owner.type = cmpNodeType.Typedef → anchor = owner_ptr) ∧
      (owner.type ≠ cmpNodeType.Typedef →
        ∃ n, nthParent processor.nodes n (some owner_ptr) = some anchor ∧
          isFunctionNode processor.nodes (some anchor) = true ∧
          ∀ m, m < n →
            isFunctionNode processor.nodes (nthParent processor.nodes m (some owner_ptr)) = false) ∧
      (owner.type = cmpNodeType.FunctionParams →
        anchor ≠ owner_ptr ∧ isFunctionNode processor.nodes (some anchor) = true) := by
  unfold TextureType.AddTypeDeclaration at h
  split at h
  · cases h
  · rename_i selfA tokensA _
    split at h
    · cases h
    · rename_i selfB tokensB _
      simp only [cmpNode_CreateEmpty, set_append_singleton] at h
      split at h
      · cases h
      · cases h
      · rename_i anchor hins
        split at h
        · cases h
        · rename_i processor2 hadd
          simp only [Option.some.injEq, Prod.mk.injEq, true_and] at h
          obtain ⟨hself, hproc⟩ := h
          subst hself hproc
          obtain ⟨owner_ptr, owner, anchor_node, h1, h2, h3, h4, h5⟩ :=
            insertBeforeNode_found processor.nodes _ rfl rfl ref.node anchor hins
          obtain ⟨hord, _, _, a, n, ha, hn, hnodes⟩ := cmpNode_AddBefore_order _ _ _ _ hadd
          have hlt : anchor < processor.nodes.length := (List.getElem?_eq_some_iff.mp h3).1
          simp only [List.getElem?_append_left hlt, h3, Option.some.injEq] at ha
          subst ha
          simp only [List.getElem?_concat_length, Option.some.injEq] at hn
          subst hn
          refine ⟨owner_ptr, owner, anchor, anchor_node, h1, h2, h3, ?_, ?_, h4, h5, ?_⟩
          · intro l1 l2 hsplit hnot
            rw [hord]
            simp only [hsplit]
            exact insertBefore_split anchor _ l1 l2 hnot
          · rw [hnodes, set_append_singleton]
          · intro hfp
            obtain ⟨n, hn1, hn2, hn3⟩ := h5 (by rw [hfp]; decide)
            refine ⟨?_, hn2⟩
            intro hc
            subst hc
            obtain ⟨nd, hnd, hty⟩ := isFunctionNode_node _ _ hn2
            rw [h2] at hnd
            cases hnd
            rw [hfp] at hty
            rcases hty with hty | hty <;> cases hty

/-- C5: when `AddTypeDeclaration` succeeds, the new declaration node is put
in the visiting order immediately before an anchor node and becomes its
sibling; the anchor is the owning node itself when that node is a `Typedef`,
and otherwise the nearest node on the owning node's parent chain that is a
`FunctionDefn` or `FunctionDecl`.  For an owning `FunctionParams` node the
anchor is a function node and not the parameter list. -/
theorem TextureType.AddTypeDeclaration_anchor (cmpHash : String → Nat) (self : TextureType)
    (processor : ComputeProcessor) (ref : TextureRef) (unique_index : Nat)
    (self1 : TextureType) (processor1 : ComputeProcessor)
    (h : TextureType.AddTypeDeclaration cmpHash self processor ref unique_index =
      some (true, self1, processor1)) :
    ∃ owner_ptr owner anchor anchor_node,
      ref.node = some owner_ptr ∧ processor.nodes[owner_ptr]? = some owner ∧
      processor.nodes[anchor]? = some anchor_node ∧
      (∀ l1 l2, processor.order = l1 ++ anchor :: l2 → anchor ∉ l1 →
        processor1.order = l1 ++ processor.nodes.length :: anchor :: l2) ∧
      processor1.nodes = processor.nodes ++
        [{ type := cmpNodeType.UserTokens, parent := anchor_node.parent,
           first_token := self1.m_FirstToken, last_token := self1.m_LastToken }] ∧
      (owner.type = cmpNodeType.Typedef → anchor = owner_ptr) ∧
      (owner.type ≠ cmpNodeType.Typedef →
        ∃ n, nthParent processor.nodes n (some owner_ptr) = some anchor ∧
          isFunctionNode processor.nodes (some anchor) = true ∧
          ∀ m, m < n →
            isFunctionNode processor.nodes (nthParent processor.nodes m (some owner_ptr)) = false) ∧
      (owner.type = cmpNodeType.FunctionParams →
        anchor ≠ owner_ptr ∧ isFunctionNode processor.nodes (some anchor) = true) :=
  TextureType.AddTypeDeclaration_inserted cmpHash self processor ref unique_index self1 processor1 h

/-- C5, instance: for `typedef Texture2Dn<float> Foo;` the declaration is
inserted immediately before the `Typedef` node. -/
theorem TextureType.AddTypeDeclaration_anchor_witness :
    ∃ self1 processor1,
      TextureType.AddTypeDeclaration sampleHash (TextureType.new 546437992) sampleTypedef
        sampleTypedefRef 0 = some (true, self1, processor1) ∧
      processor1.order = [1, 0] ∧
      ∃ owner_ptr owner anchor anchor_node,
        sampleTypedefRef.node = some owner_ptr ∧ sampleTypedef.nodes[owner_ptr]? = some owner ∧
        sampleTypedef.nodes[anchor]? = some anchor_node ∧
        (∀ l1 l2, sampleTypedef.order = l1 ++ anchor :: l2 → anchor ∉ l1 →
          processor1.order = l1 ++ sampleTypedef.nodes.length :: anchor :: l2) ∧
        processor1.nodes = sampleTypedef.nodes ++
          [{ type := cmpNodeType.UserTokens, parent := anchor_node.parent,
             first_token := self1.m_FirstToken, last_token := self1.m_LastToken }] ∧
        (owner.type = cmpNodeType.Typedef → anchor = owner_ptr) ∧
        (owner.type ≠ cmpNodeType.Typedef →
          ∃ n, nthParent sampleTypedef.nodes n (some owner_ptr) = some anchor ∧
            isFunctionNode sampleTypedef.nodes (some anchor) = true ∧
            ∀ m, m < n →
              isFunctionNode sampleTypedef.nodes
                (nthParent sampleTypedef.nodes m (some owner_ptr)) = false) ∧
        (owner.type = cmpNodeType.FunctionParams →
          anchor ≠ owner_ptr ∧ isFunctionNode sampleTypedef.nodes (some anchor) = true) := by
  have hv : (TextureType.AddTypeDeclaration sampleHash (TextureType.new 546437992)
      sampleTypedef sampleTypedefRef 0).map
        (fun (r : Bool × TextureType × ComputeProcessor) => (r.1, r.2.2.order))
      = some (true, [1, 0]) := by decide
  cases h : TextureType.AddTypeDeclaration sampleHash (TextureType.new 546437992)
      sampleTypedef sampleTypedefRef 0 with
  | none => rw [h] at hv; cases hv
  | some r =>
    obtain ⟨b, self1, processor1⟩ := r
    rw [h] at hv
    simp only [Option.map_some', Option.some.injEq, Prod.mk.injEq] at hv
    obtain ⟨hb, ho⟩ := hv
    subst hb
    exact ⟨self1, processor1, rfl, ho,
      TextureType.AddTypeDeclaration_anchor sampleHash (TextureType.new 546437992)
        sampleTypedef sampleTypedefRef 0 self1 processor1 h⟩

/-! ## ReplaceTypeInstance: the splice -/

/-- C2: for an occurrence whose keyword token has the predecessor `p` and
whose closing token has the successor `s`, `ReplaceTypeInstance` creates one
symbol token carrying the generated name and the line of the occurrence,
links `p` to it and it to `s` in both directions, and leaves the kind, text,
hash and line of every other token, every `next` other than that of `p` and
every `prev` other than that of `s` unchanged. -/
theorem TextureType.ReplaceTypeInstance_splice (self : TextureType) (tokens : List cmpToken)
    (ref : TextureRef) (k e p s : Nat) (first last : cmpToken)
    (hk : ref.keyword_token = some k) (he : ref.end_of_type_token = some e)
    (hfirst : tokens[k]? = some first) (hlast : tokens[e]? = some last)
    (hp : first.prev = some p) (hs : last.next = some s)
    (hpv : p < tokens.length) (hsv : s < tokens.length) (hpe : p ≠ e) :
    ∃ tokens1,
      TextureType.ReplaceTypeInstance self tokens ref =
        some (true, { self with m_LastError := cmpError.OK }, tokens1) ∧
      tokens1.length = tokens.length + 1 ∧
      tokens1[tokens.length]? = some
        { type := cmpTokenType.Symbol, text := TextureType.nameText self, hash := 0,
          line := ref.line, prev := some p, next := some s } ∧
      (∃ tp, tokens1[p]? = some tp ∧ tp.next = some tokens.length) ∧
      (∃ ts, tokens1[s]? = some ts ∧ ts.prev = some tokens.length) ∧
      ∀ i t, tokens[i]? = some t →
        ∃ t1, tokens1[i]? = some t1 ∧ t1.type = t.type ∧ t1.text = t.text ∧
          t1.hash = t.hash ∧ t1.line = t.line ∧
          (i ≠ p → t1.next = t.next) ∧ (i ≠ s → t1.prev = t.prev) := by
  have hkv : k < tokens.length := (List.getElem?_eq_some_iff.mp hfirst).1
  have hev : e < tokens.length := (List.getElem?_eq_some_iff.mp hlast).1
  obtain ⟨tp, htp⟩ : ∃ tp, tokens[p]? = some tp := ⟨tokens[p], List.getElem?_eq_getElem hpv⟩
  obtain ⟨ts, hts⟩ : ∃ ts, tokens[s]? = some ts := ⟨tokens[s], List.getElem?_eq_getElem hsv⟩
  have hlp : ¬ tokens.length = p := by omega
  have hle : ¬ tokens.length = e := by omega
  have hls : ¬ tokens.length = s := by omega
  have hpl : ¬ p = tokens.length := by omega
  have hsl : ¬ s = tokens.length := by omega
  have h0k : ∀ x : cmpToken, (tokens ++ [x])[k]? = some first := fun x => by
    rw [List.getElem?_append_left hkv]; exact hfirst
  have h0p : ∀ x : cmpToken, (tokens ++ [x])[p]? = some tp := fun x => by
    rw [List.getElem?_append_left hpv]; exact htp
  have h0e : ∀ x : cmpToken, (tokens ++ [x])[e]? = some last := fun x => by
    rw [List.getElem?_append_left hev]; exact hlast
  have h0s : ∀ x : cmpToken, (tokens ++ [x])[s]? = some ts := fun x => by
    rw [List.getElem?_append_left hsv]; exact hts
  simp only [TextureType.ReplaceTypeInstance, cmpToken_Create, hk, he, tokenAt, h0k, hp,
    setPrev, setNext, List.getElem?_concat_length, List.getElem?_set, List.length_set,
    List.length_append, List.length_singleton, hlp, hle, hls, hpl, hsl, hpe, if_true, if_false,
    h0p, h0e, h0s, hs, Nat.lt_succ_self, hpv, hsv, Nat.lt_succ_of_lt]
  have hlen : ∀ x : cmpToken, p < (tokens ++ [x]).length ∧ s < (tokens ++ [x]).length ∧
      tokens.length < (tokens ++ [x]).length := fun x => by
    simp only [List.length_append, List.length_singleton]; omega
  by_cases hps : p = s
  · subst hps
    simp only [if_true]
    refine ⟨_, rfl, by simp, ?_, ⟨⟨tp.type, tp.text, tp.hash, tp.line,
      some tokens.length, some tokens.length⟩, ?_, rfl⟩, ⟨⟨tp.type, tp.text, tp.hash, tp.line,
      some tokens.length, some tokens.length⟩, ?_, rfl⟩, ?_⟩
    · simp only [List.getElem?_set, List.length_set, hlp, hpl, hlen, if_true, if_false]
    · simp only [List.getElem?_set, List.length_set, hlp, hpl, hlen, if_true, if_false]
    · simp only [List.getElem?_set, List.length_set, hlp, hpl, hlen, if_true, if_false]
    · intro i t hi
      have hiv : i < tokens.length := (List.getElem?_eq_some_iff.mp hi).1
      have hil : ¬ tokens.length = i := by omega
      by_cases hip : p = i
      · subst hip
        rw [htp] at hi
        cases hi
        refine ⟨⟨tp.type, tp.text, tp.hash, tp.line, some tokens.length, some tokens.length⟩,
          ?_, rfl, rfl, rfl, rfl, fun h => absurd rfl h, fun h => absurd rfl h⟩
        simp only [List.getElem?_set, List.length_set, hlp, hpl, hlen, if_true, if_false]
      · refine ⟨t, ?_, rfl, rfl, rfl, rfl, fun _ => rfl, fun _ => rfl⟩
        simp only [List.getElem?_set, List.length_set, hil, hip, hlen, if_true, if_false,
          List.getElem?_append_left hiv, hi]
  · simp only [if_neg hps]
    have hsp : ¬ s = p := fun h => hps h.symm
    refine ⟨_, rfl, by simp, ?_, ⟨{ tp with next := some tokens.length }, ?_, rfl⟩,
      ⟨{ ts with prev := some tokens.length }, ?_, rfl⟩, ?_⟩
    · simp only [List.getElem?_set, List.length_set, hlp, hpl, hls, hsl, hlen, if_true, if_false]
    · simp only [List.getElem?_set, List.length_set, hlp, hpl, hsp, hps, hlen, if_true,
        if_false]
    · simp only [List.getElem?_set, List.length_set, hls, hsl, hlen, if_true, if_false]
    · intro i t hi
      have hiv : i < tokens.length := (List.getElem?_eq_some_iff.mp hi).1
      have hil : ¬ tokens.length = i := by omega
      by_cases his : s = i
      · subst his
        rw [hts] at hi
        cases hi
        refine ⟨{ ts with prev := some tokens.length }, ?_, rfl, rfl, rfl, rfl, fun _ => rfl,
          fun h => absurd rfl h⟩
        simp only [List.getElem?_set, List.length_set, hls, hsl, hlen, if_true, if_false]
      · by_cases hip : p = i
        · subst hip
          rw [htp] at hi
          cases hi
          refine ⟨{ tp with next := some tokens.length }, ?_, rfl, rfl, rfl, rfl,
            fun h => absurd rfl h, fun _ => rfl⟩
          simp only [List.getElem?_set, List.length_set, hlp, hpl, his, hlen, if_true,
            if_false]
        · refine ⟨t, ?_, rfl, rfl, rfl, rfl, fun _ => rfl, fun _ => rfl⟩
          simp only [List.getElem?_set, List.length_set, hil, hip, his, hlen, if_true, if_false,
            List.getElem?_append_left hiv, hi]

/-- C2, instance: in `typedef Texture2Dn<float> Foo;` the tokens
`Texture2Dn < float >` are cut out and `typedef` is linked to the new token,
which is linked to `Foo`. -/
theorem TextureType.ReplaceTypeInstance_splice_witness :
    ∃ tokens1,
      TextureType.ReplaceTypeInstance
        ⟨546437992, some "__TextureTypeName_0__", none, none, cmpError.OK⟩
        sampleTypedef.tokens sampleTypedefRef =
        some (true, ⟨546437992, some "__TextureTypeName_0__", none, none, cmpError.OK⟩,
          tokens1) ∧
      tokens1.length = sampleTypedef.tokens.length + 1 ∧
      tokens1[sampleTypedef.tokens.length]? = some
        ⟨cmpTokenType.Symbol, "__TextureTypeName_0__", 0, 1, some 0, some 5⟩ ∧
      (∃ tp, tokens1[0]? = some tp ∧ tp.next = some sampleTypedef.tokens.length) ∧
      (∃ ts, tokens1[5]? = some ts ∧ ts.prev = some sampleTypedef.tokens.length) ∧
      ∀ i t, sampleTypedef.tokens[i]? = some t →
        ∃ t1, tokens1[i]? = some t1 ∧ t1.type = t.type ∧ t1.text = t.text ∧
          t1.hash = t.hash ∧ t1.line = t.line ∧
          (i ≠ 0 → t1.next = t.next) ∧ (i ≠ 5 → t1.prev = t.prev) :=
  TextureType.ReplaceTypeInstance_splice
    ⟨546437992, some "__TextureTypeName_0__", none, none, cmpError.OK⟩
    sampleTypedef.tokens sampleTypedefRef 1 4 0 5
    ⟨cmpTokenType.Symbol, "Texture2Dn", sampleHash "Texture2Dn", 1, some 0, some 2⟩
    ⟨cmpTokenType.RAngle, ">", sampleHash ">", 1, some 3, some 5⟩
    (by decide) (by decide) (by decide) (by decide) (by decide) (by decide) (by decide)
    (by decide) (by decide)

/-! ## AddTypeDeclaration: the token chain -/

theorem BuiltChain.linked (base : List cmpToken) (line : Nat)
    (items : List (cmpTokenType × String)) (self : TextureType) (tokens : List cmpToken)
    (h : BuiltChain base line items self tokens) :
    ChainLinked base.length line items tokens := h.2.2.2.2

/-- C10, evaluated: in `void f() { Texture3Dn<short> tex; }` every token is
linked both ways and every node range is a contiguous sub-chain of the
sequence; after `ReplaceTypeInstance` every token of the sequence is still
linked both ways, but the range of the owning `Statement` node is no longer
a sub-chain of the sequence: its `first_token` is still the keyword token,
which has been cut out. -/
theorem TextureType.ReplaceTypeInstance_stale_first_token :
    ((List.range sampleStatement.tokens.length).all
      (linkedBothWays sampleStatement.tokens) = true ∧
     sampleStatement.nodes.all (nodeRangeContiguous sampleStatement.tokens (some 0)) = true) ∧
    (TextureType.ReplaceTypeInstance
      ⟨590305913, some "__TextureTypeName_0__", none, none, cmpError.OK⟩
      sampleStatement.tokens sampleStatementRef).map
      (fun r => (r.1, sequenceFrom r.2.2 r.2.2.length (some 0),
        (sequenceFrom r.2.2 r.2.2.length (some 0)).all (linkedBothWays r.2.2))) =
      some (true, [0, 1, 2, 3, 4, 12, 9, 10, 11], true) ∧
    (TextureType.ReplaceTypeInstance
      ⟨590305913, some "__TextureTypeName_0__", none, none, cmpError.OK⟩
      sampleStatement.tokens sampleStatementRef).map
      (fun r => (sampleStatement.nodes.map (nodeRangeContiguous r.2.2 (some 0)),
        sampleStatement.nodes.map (fun nd => nd.first_token))) =
      some ([true, true, false], [some 0, some 2, some 5]) := by
  refine ⟨⟨?_, ?_⟩, ?_, ?_⟩
  · decide
  · decide
  · decide
  · decide

/-- C11, evaluated: the `FunctionParams` node of
`void f(Texture1Du<int> a, Texture2Dn<float> b);` holds two well-formed
references, at the tokens 3 and 9, with different group keys.  `Visit`
continues and records the first one only: the map holds one group with one
reference, and nothing is recorded under the key of the second. -/
theorem FindTextureRefs.Visit_records_first_reference_only :
    (followsPlain sampleHash sampleMixedParams.tokens true (some 3) = true ∧
     followsPlain sampleHash sampleMixedParams.tokens true (some 9) = true ∧
     tokenIs (tokenAt sampleMixedParams.tokens (some 3))
       (m_TextureMatches sampleHash).Match = true ∧
     tokenIs (tokenAt sampleMixedParams.tokens (some 9))
       (m_TextureMatches sampleHash).Match = true) ∧
    (FindTextureRefs.Visit sampleHash FindTextureRefs.new sampleMixedParams 1).map
      (fun r => (r.1, r.2.m_TextureRefsMap.map
        (fun e => (e.1, e.2.map (fun ref => ref.keyword_token))))) =
      some (true, [(keyPlain sampleMixedParams.tokens (some 3), [some 3])]) ∧
    (FindTextureRefs.Visit sampleHash FindTextureRefs.new sampleMixedParams 1).map
      (fun r => TextureRefsMap.find r.2.m_TextureRefsMap
        (keyPlain sampleMixedParams.tokens (some 9))) = some none ∧
    (VisitNodes (fun ftr node => FindTextureRefs.Visit sampleHash ftr sampleMixedParams node)
      sampleMixedParams.order FindTextureRefs.new).map
      (fun v => (v.1, v.2.m_TextureRefsMap.map (fun e => e.2.length))) = some (true, [1]) := by
  refine ⟨⟨?_, ?_, ?_, ?_⟩, ?_, ?_, ?_⟩
  · decide
  · decide
  · decide
  · decide
  · decide
  · decide
  · decide

theorem FindTextureRefs.fail_error (self self1 : FindTextureRefs) (processor : ComputeProcessor)
    (iterator : TokenIterator) (fmt : String) (b : Bool) (hfmt : fmt ∈ visitFormats)
    (h : FindTextureRefs.fail self processor iterator fmt = some (b, self1)) :
    b = false ∧ ∃ (fmt1 : String) (t : cmpToken), fmt1 ∈ visitFormats ∧
      self1.m_LastError =
        cmpError.Create fmt1 [cmpArg.str processor.filename, cmpArg.num t.line] := by
  unfold FindTextureRefs.fail at h
  split at h
  · cases h
  · rename_i t _
    simp only [Option.some.injEq, Prod.mk.injEq] at h
    obtain ⟨h0, h1⟩ := h
    subst h1
    exact ⟨h0.symm, fmt, t, hfmt, rfl⟩

theorem FindTextureRefs.Visit.close_error (self self1 : FindTextureRefs)
    (processor : ComputeProcessor) (node : cmpNode) (ref : TextureRef) (combined_hash : Nat)
    (iterator : TokenIterator)
    (h : FindTextureRefs.Visit.close self processor node ref combined_hash iterator =
      some (false, self1)) :
    ∃ (fmt1 : String) (t : cmpToken), fmt1 ∈ visitFormats ∧
      self1.m_LastError =
        cmpError.Create fmt1 [cmpArg.str processor.filename, cmpArg.num t.line] := by
  simp only [FindTextureRefs.Visit.close] at h
  repeat' split at h
  all_goals first
    | exact (FindTextureRefs.fail_error _ _ _ _ _ _ (by decide) h).2
    | cases h

theorem FindTextureRefs.Visit.parse_error (cmpHash : String → Nat)
    (self self1 : FindTextureRefs) (processor : ComputeProcessor) (node_ptr : Nat)
    (node : cmpNode) (iterator : TokenIterator)
    (h : FindTextureRefs.Visit.parse cmpHash self processor node_ptr node iterator =
      some (false, self1)) :
    ∃ (fmt1 : String) (t : cmpToken), fmt1 ∈ visitFormats ∧
      self1.m_LastError =
        cmpError.Create fmt1 [cmpArg.str processor.filename, cmpArg.num t.line] := by
  simp only [FindTextureRefs.Visit.parse] at h
  repeat' split at h
  all_goals first
    | exact (FindTextureRefs.fail_error _ _ _ _ _ _ (by decide) h).2
    | exact FindTextureRefs.Visit.close_error _ _ _ _ _ _ _ h
    | cases h

theorem FindTextureRefs.Visit_error (cmpHash : String → Nat) (self self1 : FindTextureRefs)
    (processor : ComputeProcessor) (node_ptr : Nat)
    (h : FindTextureRefs.Visit cmpHash self processor node_ptr = some (false, self1)) :
    ∃ (fmt1 : String) (t : cmpToken), fmt1 ∈ visitFormats ∧
      self1.m_LastError =
        cmpError.Create fmt1 [cmpArg.str processor.filename, cmpArg.num t.line] := by
  simp only [FindTextureRefs.Visit] at h
  repeat' split at h
  all_goals first
    | exact FindTextureRefs.Visit.parse_error _ _ _ _ _ _ _ h
    | cases h

theorem VisitNodes_stop {σ : Type} (visit : σ → Nat → Option (Bool × σ)) (n : Nat)
    (l2 : List Nat) (s1 s2 : σ) (hfail : visit s1 n = some (false, s2)) :
    ∀ (l1 : List Nat) (s0 : σ), VisitNodes visit l1 s0 = some (true, s1) →
      VisitNodes visit (l1 ++ n :: l2) s0 = some (false, s2) := by
  intro l1
  induction l1 with
  | nil =>
    intro s0 h
    simp only [VisitNodes, Option.some.injEq, Prod.mk.injEq, true_and] at h
    subst h
    simp only [List.nil_append, VisitNodes, hfail]
  | cons m rest ih =>
    intro s0 h
    simp only [VisitNodes] at h
    simp only [List.cons_append, VisitNodes]
    split at h
    · cases h
    · cases h
    · exact ih _ h

/-- C12: when the discovery visitor stops with an error on a node of the
translation unit, whatever it recorded on the nodes visited before,
`Apply` returns exactly the visitor's last error, which is one of the
grammar errors with the file name and a line, and the transform and the
processor (AST, visiting order and token heap) are those of the input. -/
theorem TextureTransform.Apply_discovery_error (cmpHash : String → Nat)
    (self : TextureTransform) (processor : ComputeProcessor) (l1 l2 : List Nat) (n : Nat)
    (s ftr : FindTextureRefs)
    (horder : processor.order = l1 ++ n :: l2)
    (hbefore : VisitNodes (fun ftr node => FindTextureRefs.Visit cmpHash ftr processor node)
      l1 FindTextureRefs.new = some (true, s))
    (hfail : FindTextureRefs.Visit cmpHash s processor n = some (false, ftr)) :
    TextureTransform.Apply cmpHash self processor = some (ftr.m_LastError, self, processor) ∧
    ftr.m_LastError ≠ cmpError.OK ∧
    ∃ (fmt : String) (t : cmpToken), fmt ∈ visitFormats ∧
      ftr.m_LastError =
        cmpError.Create fmt [cmpArg.str processor.filename, cmpArg.num t.line] := by
  have hv := VisitNodes_stop
    (fun ftr node => FindTextureRefs.Visit cmpHash ftr processor node) n l2 s ftr hfail l1 _
    hbefore
  rw [← horder] at hv
  obtain ⟨fmt, t, hfmt, herr⟩ := FindTextureRefs.Visit_error _ _ _ _ _ hfail
  refine ⟨?_, ?_, fmt, t, hfmt, herr⟩
  · unfold TextureTransform.Apply
    rw [hv]
  · rw [herr]
    intro hc
    cases hc

/-- C12, instance: in `sampleLateError` the first statement is recorded and
the second one stops discovery with `Expecting '>'` on line 3; `Apply`
returns that error and changes nothing. -/
theorem TextureTransform.Apply_discovery_error_witness :
    ∃ s ftr,
      sampleLateError.order = [0, 1] ++ 2 :: [] ∧
      VisitNodes (fun ftr node => FindTextureRefs.Visit sampleHash ftr sampleLateError node)
        [0, 1] FindTextureRefs.new = some (true, s) ∧
      s.m_TextureRefsMap.map (fun e => e.2.length) = [1] ∧
      FindTextureRefs.Visit sampleHash s sampleLateError 2 = some (false, ftr) ∧
      ftr.m_LastError =
        cmpError.Create "%s(%d): Expecting '>'" [cmpArg.str "a.cl", cmpArg.num 3] ∧
      (TextureTransform.Apply sampleHash TextureTransform.new sampleLateError =
        some (ftr.m_LastError, TextureTransform.new, sampleLateError) ∧
      ftr.m_LastError ≠ cmpError.OK ∧
      ∃ (fmt : String) (t : cmpToken), fmt ∈ visitFormats ∧
        ftr.m_LastError =
          cmpError.Create fmt [cmpArg.str sampleLateError.filename, cmpArg.num t.line]) := by
  have hv : (VisitNodes
      (fun ftr node => FindTextureRefs.Visit sampleHash ftr sampleLateError node)
      [0, 1] FindTextureRefs.new).map
        (fun (r : Bool × FindTextureRefs) => (r.1, r.2.m_TextureRefsMap.map (fun e => e.2.length)))
      = some (true, [1]) := by decide
  cases h1 : VisitNodes
      (fun ftr node => FindTextureRefs.Visit sampleHash ftr sampleLateError node)
      [0, 1] FindTextureRefs.new with
  | none => rw [h1] at hv; cases hv
  | some v =>
    obtain ⟨b, s⟩ := v
    rw [h1] at hv
    simp only [Option.map_some', Option.some.injEq, Prod.mk.injEq] at hv
    obtain ⟨hb, hlen⟩ := hv
    subst hb
    have hf : (FindTextureRefs.Visit sampleHash s sampleLateError 2).map
        (fun (r : Bool × FindTextureRefs) => (r.1, r.2.m_LastError)) =
        some (false,
          cmpError.Create "%s(%d): Expecting '>'" [cmpArg.str "a.cl", cmpArg.num 3]) := by
      have hs : some s = (VisitNodes
          (fun ftr node => FindTextureRefs.Visit sampleHash ftr sampleLateError node)
          [0, 1] FindTextureRefs.new).map (fun r => r.2) := by rw [h1]; rfl
      have hs2 : (VisitNodes
          (fun ftr node => FindTextureRefs.Visit sampleHash ftr sampleLateError node)
          [0, 1] FindTextureRefs.new).bind
          (fun r => (FindTextureRefs.Visit sampleHash r.2 sampleLateError 2).map
            (fun (r : Bool × FindTextureRefs) => (r.1, r.2.m_LastError))) =
          some (false,
            cmpError.Create "%s(%d): Expecting '>'" [cmpArg.str "a.cl", cmpArg.num 3]) := by
        decide
      rw [h1] at hs2
      exact hs2
    cases h2 : FindTextureRefs.Visit sampleHash s sampleLateError 2 with
    | none => rw [h2] at hf; cases hf
    | some r =>
      obtain ⟨b2, ftr⟩ := r
      rw [h2] at hf
      simp only [Option.map_some', Option.some.injEq, Prod.mk.injEq] at hf
      obtain ⟨hb2, herr⟩ := hf
      subst hb2
      exact ⟨s, ftr, rfl, rfl, hlen, h2, herr,
        TextureTransform.Apply_discovery_error sampleHash TextureTransform.new sampleLateError
          [0, 1] [] 2 s ftr rfl h1 h2⟩

/-! ## Base: paths and command-line arguments -/

/-- C18, evaluated: of the four cases named in the comment of `JoinPaths`,
`"A" + "B"` and `"A/" + "B"` give `A/B`, while `"A" + "/B"` and
`"A/" + "/B"` give `A//B`, with two separators. -/
theorem JoinPaths_leading_separator_doubled :
    JoinPaths "A" "B" = some "A/B" ∧ JoinPaths "A/" "B" = some "A/B" ∧
    JoinPaths "A" "/B" = some "A//B" ∧ JoinPaths "A/" "/B" = some "A//B" := by
  decide

theorem Arguments.GetIndexOf.loop_spec (arg : String) (n : Nat) :
    ∀ (rest : List String) (i found : Nat), found ≤ n → found ≤ i →
      i + rest.length ≤ INT_MAX →
      (n < found + rest.count arg →
        ∃ j, Arguments.GetIndexOf.loop arg (n : Int) rest i found = some (i + j) ∧
          rest[j]? = some arg ∧ found + (rest.take j).count arg = n) ∧
      (found + rest.count arg ≤ n →
        Arguments.GetIndexOf.loop arg (n : Int) rest i found = some SIZE_T_MINUS_ONE) := by
  intro rest
  induction rest with
  | nil =>
    intro i found _ _ _
    refine ⟨fun h => ?_, fun _ => rfl⟩
    simp only [List.count_nil] at h
    omega
  | cons a rest ih =>
    intro i found hn hi hlen
    simp only [List.length_cons] at hlen
    by_cases ha : a = arg
    · subst ha
      have hov : ¬ found ≥ INT_MAX := by omega
      by_cases hf : found = n
      · subst hf
        refine ⟨fun _ => ⟨0, ?_, ?_, ?_⟩, fun h => ?_⟩
        · simp [Arguments.GetIndexOf.loop, hov]
        · simp
        · simp
        · simp only [List.count_cons_self] at h
          omega
      · have hne : ¬ ((found : Int) = (n : Int)) := by omega
        obtain ⟨ih1, ih2⟩ := ih (i + 1) (found + 1) (by omega) (by omega) (by omega)
        refine ⟨fun h => ?_, fun h => ?_⟩
        · simp only [List.count_cons_self] at h
          obtain ⟨j, h1, h2, h3⟩ := ih1 (by omega)
          refine ⟨j + 1, ?_, ?_, ?_⟩
          · simp only [Arguments.GetIndexOf.loop, hov, hne, if_true, if_false]
            rw [h1]
            congr 1
            omega
          · simpa using h2
          · simp only [List.take_succ_cons, List.count_cons_self]
            omega
        · simp only [List.count_cons_self] at h
          simp only [Arguments.GetIndexOf.loop, hov, hne, if_true, if_false]
          exact ih2 (by omega)
    · obtain ⟨ih1, ih2⟩ := ih (i + 1) found hn (by omega) (by omega)
      have ha1 : arg ≠ a := fun hc => ha hc.symm
      have hc : (a :: rest).count arg = rest.count arg := List.count_cons_of_ne ha1 rest
      refine ⟨fun h => ?_, fun h => ?_⟩
      · rw [hc] at h
        obtain ⟨j, h1, h2, h3⟩ := ih1 h
        refine ⟨j + 1, ?_, ?_, ?_⟩
        · simp only [Arguments.GetIndexOf.loop, ha, if_false]
          rw [h1]
          congr 1
          omega
        · simpa using h2
        · simp only [List.take_succ_cons, List.count_cons_of_ne ha1]
          exact h3
      · rw [hc] at h
        simp only [Arguments.GetIndexOf.loop, ha, if_false]
        exact ih2 h

theorem Arguments.GetIndexOf_result (self : Arguments) (arg : String) (n : Nat)
    (hsize : self.m_Arguments.length ≤ INT_MAX) :
    ∃ r, Arguments.GetIndexOf self arg (n : Int) = some r ∧
      (r = SIZE_T_MINUS_ONE ↔ self.m_Arguments.count arg < n + 1) ∧
      (r ≠ SIZE_T_MINUS_ONE →
        r < self.m_Arguments.length ∧ self.m_Arguments[r]? = some arg ∧
          (self.m_Arguments.take r).count arg = n) := by
  obtain ⟨h1, h2⟩ := Arguments.GetIndexOf.loop_spec arg n self.m_Arguments 0 0
    (Nat.zero_le _) (Nat.le_refl _) (by omega)
  have hmax : INT_MAX < SIZE_T_MINUS_ONE := by decide
  by_cases hc : n < self.m_Arguments.count arg
  · obtain ⟨j, g1, g2, g3⟩ := h1 (by omega)
    have hj : j < self.m_Arguments.length := (List.getElem?_eq_some_iff.mp g2).1
    refine ⟨j, ?_, ?_, ?_⟩
    · unfold Arguments.GetIndexOf
      rw [g1, Nat.zero_add]
    · constructor
      · intro h; omega
      · intro h; omega
    · intro _
      exact ⟨hj, g2, by omega⟩
  · refine ⟨SIZE_T_MINUS_ONE, ?_, ?_, ?_⟩
    · unfold Arguments.GetIndexOf
      exact h2 (by omega)
    · constructor
      · intro _; omega
      · intro _; rfl
    · intro h
      exact absurd rfl h

/-- C19: for an argument list of at most `INT_MAX` entries (its size comes
from the `int argc`) and an occurrence `n ≥ 0`, `GetIndexOf(arg, n)` returns
`-1` exactly when fewer than `n + 1` entries equal `arg`, and otherwise the
index `i` with the entry at `i` equal to `arg` and exactly `n` entries before
`i` equal to `arg`; `GetProperty(arg, n)` returns the entry at `i + 1` when
that `i` exists and `i + 1` is within the list, and the empty string
otherwise; `Have(arg)` is true exactly when some entry equals `arg`. -/
theorem Arguments.GetIndexOf_nth_occurrence (self : Arguments) (arg : String) (n : Nat)
    (hsize : self.m_Arguments.length ≤ INT_MAX) :
    ∃ r, Arguments.GetIndexOf self arg (n : Int) = some r ∧
      (r = SIZE_T_MINUS_ONE ↔ self.m_Arguments.count arg < n + 1) ∧
      (r ≠ SIZE_T_MINUS_ONE →
        self.m_Arguments[r]? = some arg ∧ (self.m_Arguments.take r).count arg = n) ∧
      Arguments.GetProperty self arg (n : Int) =
        some (if r = SIZE_T_MINUS_ONE then "" else (self.m_Arguments[r + 1]?).getD "") ∧
      Arguments.Have self arg = some (decide (arg ∈ self.m_Arguments)) := by
  obtain ⟨r, hr, hiff, hidx⟩ := Arguments.GetIndexOf_result self arg n hsize
  have hmax : INT_MAX < SIZE_T_MINUS_ONE := by decide
  have hpow : SIZE_T_MINUS_ONE + 1 = 2 ^ 64 := by decide
  refine ⟨r, hr, hiff, fun h => (hidx h).2, ?_, ?_⟩
  · unfold Arguments.GetProperty
    rw [hr]
    by_cases hnp : r = SIZE_T_MINUS_ONE
    · simp [hnp]
    · obtain ⟨hlt, _, _⟩ := hidx hnp
      have hmod : (r + 1) % 2 ^ 64 = r + 1 := Nat.mod_eq_of_lt (by omega)
      simp only [hnp, false_or, hmod, if_false]
      by_cases hin : r + 1 < self.m_Arguments.length
      · have hnot : ¬ r + 1 ≥ self.m_Arguments.length := by omega
        simp only [hnot, if_false]
        rw [List.getElem?_eq_getElem hin]
        rfl
      · have hge : r + 1 ≥ self.m_Arguments.length := by omega
        simp only [hge, if_true]
        rw [List.getElem?_eq_none (by omega)]
        rfl
  · obtain ⟨r0, hr0, hiff0, _⟩ := Arguments.GetIndexOf_result self arg 0 hsize
    unfold Arguments.Have
    have hr0' : Arguments.GetIndexOf self arg 0 = some r0 := hr0
    rw [hr0']
    simp only [Option.some.injEq, decide_eq_decide]
    rw [Ne, hiff0]
    simp only [Nat.zero_add, Nat.lt_one_iff, List.count_eq_zero, not_not]

/-- C19, instance: in `cbpp -i a.cl -i b.cl` the occurrence 1 of `-i` is at
index 3 and its property is `b.cl`. -/
theorem Arguments.GetIndexOf_nth_occurrence_witness :
    Arguments.GetIndexOf ⟨["cbpp", "-i", "a.cl", "-i", "b.cl"]⟩ "-i" 1 = some 3 ∧
    Arguments.GetIndexOf ⟨["cbpp", "-i", "a.cl", "-i", "b.cl"]⟩ "-i" 2 =
      some SIZE_T_MINUS_ONE ∧
    ∃ r, Arguments.GetIndexOf ⟨["cbpp", "-i", "a.cl", "-i", "b.cl"]⟩ "-i" ((1 : Nat) : Int) =
        some r ∧
      (r = SIZE_T_MINUS_ONE ↔
        (["cbpp", "-i", "a.cl", "-i", "b.cl"] : List String).count "-i" < 1 + 1) ∧
      (r ≠ SIZE_T_MINUS_ONE →
        (["cbpp", "-i", "a.cl", "-i", "b.cl"] : List String)[r]? = some "-i" ∧
          ((["cbpp", "-i", "a.cl", "-i", "b.cl"] : List String).take r).count "-i" = 1) ∧
      Arguments.GetProperty ⟨["cbpp", "-i", "a.cl", "-i", "b.cl"]⟩ "-i" ((1 : Nat) : Int) =
        some (if r = SIZE_T_MINUS_ONE then ""
          else ((["cbpp", "-i", "a.cl", "-i", "b.cl"] : List String)[r + 1]?).getD "") ∧
      Arguments.Have ⟨["cbpp", "-i", "a.cl", "-i", "b.cl"]⟩ "-i" =
        some (decide ("-i" ∈ (["cbpp", "-i", "a.cl", "-i", "b.cl"] : List String))) :=
  ⟨by decide, by decide,
    Arguments.GetIndexOf_nth_occurrence ⟨["cbpp", "-i", "a.cl", "-i", "b.cl"]⟩ "-i" 1
      (by decide)⟩

/-! ## CombineHash -/

theorem CombineHash_lt (c h : Nat) (hc : c < 2 ^ 32) : CombineHash c h < 2 ^ 32 :=
  Nat.xor_lt_two_pow hc (Nat.mod_lt _ (by decide))

theorem CombineHash_cancel (c h1 h2 : Nat) (h1lt : h1 < 2 ^ 32) (h2lt : h2 < 2 ^ 32)
    (h : CombineHash c h1 = CombineHash c h2) : h1 = h2 := by
  unfold CombineHash at h
  have h3 := Nat.xor_right_injective h
  simp only [] at h3
  generalize c <<< 6 = u at h3
  generalize c >>> 2 = v at h3
  norm_num at h3 h1lt h2lt
  omega

theorem mod_sub_add_cancel (z k : Nat) (hz : z < 2 ^ 32) :
    ((z + 2 ^ 32 - k % 2 ^ 32) % 2 ^ 32 + k) % 2 ^ 32 = z := by
  norm_num at hz ⊢
  omega

theorem CombineHash_onto (c y : Nat) (hc : c < 2 ^ 32) (hy : y < 2 ^ 32) :
    ∃ h, h < 2 ^ 32 ∧ CombineHash c h = y := by
  have hz : c ^^^ y < 2 ^ 32 := Nat.xor_lt_two_pow hc hy
  refine ⟨((c ^^^ y) + 2 ^ 32 - (0x9E3779B9 + (c <<< 6) + (c >>> 2)) % 2 ^ 32) % 2 ^ 32,
    Nat.mod_lt _ (by decide), ?_⟩
  unfold CombineHash
  have hsum := mod_sub_add_cancel (c ^^^ y) (0x9E3779B9 + (c <<< 6) + (c >>> 2)) hz
  simp only [← Nat.add_assoc] at hsum
  rw [hsum, Nat.xor_cancel_left]

/-- C20: for a fixed 32-bit value `c`, `h ↦ CombineHash(c, h)` maps the
32-bit values to the 32-bit values, is injective and onto; hence two
references whose keyword tokens have the same hash and that have one type
token each get the same group key exactly when their type tokens have the
same hash. -/
theorem CombineHash_bijective (c : Nat) (hc : c < 2 ^ 32) :
    (∀ h, CombineHash c h < 2 ^ 32) ∧
    (∀ h1 h2, h1 < 2 ^ 32 → h2 < 2 ^ 32 → (CombineHash c h1 = CombineHash c h2 ↔ h1 = h2)) ∧
    (∀ y, y < 2 ^ 32 → ∃ h, h < 2 ^ 32 ∧ CombineHash c h = y) ∧
    (∀ (tokens1 tokens2 : List cmpToken) (kw1 kw2 : Option Nat),
      hashOf (tokenAfter tokens1 kw1 0) = c → hashOf (tokenAfter tokens2 kw2 0) = c →
      hashOf (tokenAfter tokens1 kw1 2) < 2 ^ 32 → hashOf (tokenAfter tokens2 kw2 2) < 2 ^ 32 →
      (keyPlain tokens1 kw1 = keyPlain tokens2 kw2 ↔
        hashOf (tokenAfter tokens1 kw1 2) = hashOf (tokenAfter tokens2 kw2 2))) := by
  refine ⟨fun h => CombineHash_lt c h hc, fun h1 h2 h1lt h2lt => ?_,
    fun y hy => CombineHash_onto c y hc hy, ?_⟩
  · exact ⟨CombineHash_cancel c h1 h2 h1lt h2lt, fun h => by rw [h]⟩
  · intro tokens1 tokens2 kw1 kw2 hk1 hk2 ht1 ht2
    unfold keyPlain
    rw [hk1, hk2]
    exact ⟨CombineHash_cancel c _ _ ht1 ht2, fun h => by rw [h]⟩

/-- C20, instance: for `c = 7` the values 1 and 2 get different keys. -/
theorem CombineHash_bijective_witness :
    (7 : Nat) < 2 ^ 32 ∧ CombineHash 7 1 ≠ CombineHash 7 2 ∧
    ((∀ h, CombineHash 7 h < 2 ^ 32) ∧
    (∀ h1 h2, h1 < 2 ^ 32 → h2 < 2 ^ 32 → (CombineHash 7 h1 = CombineHash 7 h2 ↔ h1 = h2)) ∧
    (∀ y, y < 2 ^ 32 → ∃ h, h < 2 ^ 32 ∧ CombineHash 7 h = y) ∧
    (∀ (tokens1 tokens2 : List cmpToken) (kw1 kw2 : Option Nat),
      hashOf (tokenAfter tokens1 kw1 0) = 7 → hashOf (tokenAfter tokens2 kw2 0) = 7 →
      hashOf (tokenAfter tokens1 kw1 2) < 2 ^ 32 → hashOf (tokenAfter tokens2 kw2 2) < 2 ^ 32 →
      (keyPlain tokens1 kw1 = keyPlain tokens2 kw2 ↔
        hashOf (tokenAfter tokens1 kw1 2) = hashOf (tokenAfter tokens2 kw2 2)))) :=
  ⟨by decide, by decide, CombineHash_bijective 7 (by decide)⟩

/-- C14, counterexample: for the keyword hash 0 and the different type
hashes 1640531527 and 1623819592, folding the types in the two orders
gives the same group key, 4278255361. -/
theorem CombineHash_orders_collide :
    (1640531527 : Nat) ≠ 1623819592 ∧ (1640531527 : Nat) < 2 ^ 32 ∧
    (1623819592 : Nat) < 2 ^ 32 ∧
    CombineHash (CombineHash 0 1640531527) 1623819592 = 4278255361 ∧
    CombineHash (CombineHash 0 1623819592) 1640531527 = 4278255361 := by
  decide

/-- C14 (as amended): for every 32-bit keyword hash `k` and different 32-bit
type hashes `a` and `b`, the keys after the first fold differ,
`CombineHash(k, a) ≠ CombineHash(k, b)`, and so do the keys after folding the
same second hash `t` onto a fixed first fold; the fold is not symmetric in
the two type hashes: for `k = 0`, `a = 0`, `b = 1` the two orders give the
different keys 3449077713 and 3449077533. -/
theorem CombineHash_order_sensitive :
    (∀ k a b, k < 2 ^ 32 → a < 2 ^ 32 → b < 2 ^ 32 → a ≠ b →
      CombineHash k a ≠ CombineHash k b ∧
      ∀ t, CombineHash (CombineHash k t) a ≠ CombineHash (CombineHash k t) b) ∧
    CombineHash (CombineHash 0 0) 1 = 3449077713 ∧
    CombineHash (CombineHash 0 1) 0 = 3449077533 := by
  refine ⟨fun k a b _ ha hb hab => ⟨fun h => hab (CombineHash_cancel k a b ha hb h),
    fun t h => hab (CombineHash_cancel _ a b ha hb h)⟩, by decide, by decide⟩

/-- C14, instance: for `k = 5` the type hashes 1 and 2 give different
keys. -/
theorem CombineHash_order_sensitive_witness :
    CombineHash 5 1 ≠ CombineHash 5 2 ∧
    (∀ t, CombineHash (CombineHash 5 t) 1 ≠ CombineHash (CombineHash 5 t) 2) :=
  CombineHash_order_sensitive.1 5 1 2 (by decide) (by decide) (by decide) (by decide)

/-! ## AddTypeDeclaration: the kind of the anchor -/

/-- C17, counterexample: in `void f() { typedef Texture2Dn<float> Foo; }`
the owning node is a `Typedef` whose parent is the `FunctionDefn`.
`AddTypeDeclaration` succeeds and inserts the declaration before the
`Typedef` node itself: the new node is visited after the function node and
before the typedef, its parent is the `FunctionDefn`, and its tokens lie
between the braces of the function body. -/
theorem TextureType.AddTypeDeclaration_inside_function_body :
    (nodeAt sampleNestedTypedef.nodes sampleNestedTypedefRef.node).map
      (fun nd => (nd.type, nd.parent)) = some (cmpNodeType.Typedef, some 0) ∧
    (nodeAt sampleNestedTypedef.nodes (some 0)).map (fun nd => nd.type) =
      some cmpNodeType.FunctionDefn ∧
    (TextureType.AddTypeDeclaration sampleHash (TextureType.new 546437992)
      sampleNestedTypedef sampleNestedTypedefRef 0).map
      (fun r => (r.1, r.2.2.order, r.2.2.nodes.map (fun nd => (nd.type, nd.parent)))) =
      some (true, [0, 2, 1],
        [(cmpNodeType.FunctionDefn, none), (cmpNodeType.Typedef, some 0),
         (cmpNodeType.UserTokens, some 0)]) ∧
    (TextureType.AddTypeDeclaration sampleHash (TextureType.new 546437992)
      sampleNestedTypedef sampleNestedTypedefRef 0).map
      (fun r => (sequenceFrom r.2.2.tokens r.2.2.tokens.length (some 0)).map
        (fun p => (tokenAt r.2.2.tokens (some p)).map (fun t => t.text))) =
      some [some "void", some "f", some "(", some ")", some "\x7b",
        some "cmp_texture_type", some "(", some "float", some ",", some "2", some ",",
        some "cudaReadModeNormalizedFloat", some ",", some "__TextureTypeName_0__",
        some ")", some ";", some "typedef", some "Texture2Dn", some "<", some "float",
        some ">", some "Foo", some ";", some "\x7d"] := by
  refine ⟨?_, ?_, ?_, ?_⟩
  · decide
  · decide
  · decide
  · decide

/-- C17 (as amended): whenever `AddTypeDeclaration` succeeds, the node the
declaration is inserted before is never a `FunctionParams` node.  When the
owning node is not a `Typedef`, it is a `FunctionDefn` or `FunctionDecl` node
on the parent chain of the owning node, so it is not a descendant of any
`FunctionDefn` in an AST in which no function node lies inside a function
definition.  When the owning node is a `Typedef`, it is that `Typedef` node
itself, wherever it is nested. -/
theorem TextureType.AddTypeDeclaration_anchor_kind (cmpHash : String → Nat)
    (self : TextureType) (processor : ComputeProcessor) (ref : TextureRef)
    (unique_index : Nat) (self1 : TextureType) (processor1 : ComputeProcessor)
    (h : TextureType.AddTypeDeclaration cmpHash self processor ref unique_index =
      some (true, self1, processor1)) :
    ∃ owner_ptr owner anchor anchor_node,
      ref.node = some owner_ptr ∧ processor.nodes[owner_ptr]? = some owner ∧
      processor.nodes[anchor]? = some anchor_node ∧
      (∀ l1 l2, processor.order = l1 ++ anchor :: l2 → anchor ∉ l1 →
        processor1.order = l1 ++ processor.nodes.length :: anchor :: l2) ∧
      anchor_node.type ≠ cmpNodeType.FunctionParams ∧
      (owner.type = cmpNodeType.Typedef → anchor = owner_ptr) ∧
      (owner.type ≠ cmpNodeType.Typedef →
        (anchor_node.type = cmpNodeType.FunctionDefn ∨
          anchor_node.type = cmpNodeType.FunctionDecl) ∧
        (∃ n, nthParent processor.nodes n (some owner_ptr) = some anchor) ∧
        ((∀ p q k nd, isFunctionNode processor.nodes (some p) = true →
            nthParent processor.nodes (k + 1) (some p) = some q →
            processor.nodes[q]? = some nd → nd.type ≠ cmpNodeType.FunctionDefn) →
          ∀ q k nd, nthParent processor.nodes (k + 1) (some anchor) = some q →
            processor.nodes[q]? = some nd → nd.type ≠ cmpNodeType.FunctionDefn)) := by
  obtain ⟨owner_ptr, owner, anchor, anchor_node, h1, h2, h3, h4, _, h6, h7, _⟩ :=
    TextureType.AddTypeDeclaration_inserted cmpHash self processor ref unique_index self1
      processor1 h
  have hfun : isFunctionNode processor.nodes (some anchor) = true →
      anchor_node.type = cmpNodeType.FunctionDefn ∨
        anchor_node.type = cmpNodeType.FunctionDecl := by
    intro hf
    simpa [isFunctionNode, nodeAt, h3] using hf
  refine ⟨owner_ptr, owner, anchor, anchor_node, h1, h2, h3, h4, ?_, h6, ?_⟩
  · by_cases ht : owner.type = cmpNodeType.Typedef
    · have := h6 ht
      subst this
      rw [h2] at h3
      cases h3
      rw [ht]
      decide
    · obtain ⟨n, _, hf, _⟩ := h7 ht
      rcases hfun hf with hk | hk <;> rw [hk] <;> decide
  · intro ht
    obtain ⟨n, hn, hf, _⟩ := h7 ht
    exact ⟨hfun hf, ⟨n, hn⟩, fun hflat q k nd hq hnd => hflat anchor q k nd hf hq hnd⟩

/-- C17, instance: for the statement of `void f() { Texture3Dn<short> tex; }`
the declaration is inserted before the `FunctionDefn` node. -/
theorem TextureType.AddTypeDeclaration_anchor_kind_witness :
    ∃ self1 processor1,
      TextureType.AddTypeDeclaration sampleHash (TextureType.new 590305913) sampleStatement
        sampleStatementRef 0 = some (true, self1, processor1) ∧
      processor1.order = [3, 0, 1, 2] ∧
      ∃ owner_ptr owner anchor anchor_node,
        sampleStatementRef.node = some owner_ptr ∧
        sampleStatement.nodes[owner_ptr]? = some owner ∧
        sampleStatement.nodes[anchor]? = some anchor_node ∧
        (∀ l1 l2, sampleStatement.order = l1 ++ anchor :: l2 → anchor ∉ l1 →
          processor1.order = l1 ++ sampleStatement.nodes.length :: anchor :: l2) ∧
        anchor_node.type ≠ cmpNodeType.FunctionParams ∧
        (owner.type = cmpNodeType.Typedef → anchor = owner_ptr) ∧
        (owner.type ≠ cmpNodeType.Typedef →
          (anchor_node.type = cmpNodeType.FunctionDefn ∨
            anchor_node.type = cmpNodeType.FunctionDecl) ∧
          (∃ n, nthParent sampleStatement.nodes n (some owner_ptr) = some anchor) ∧
          ((∀ p q k nd, isFunctionNode sampleStatement.nodes (some p) = true →
              nthParent sampleStatement.nodes (k + 1) (some p) = some q →
              sampleStatement.nodes[q]? = some nd → nd.type ≠ cmpNodeType.FunctionDefn) →
            ∀ q k nd, nthParent sampleStatement.nodes (k + 1) (some anchor) = some q →
              sampleStatement.nodes[q]? = some nd →
              nd.type ≠ cmpNodeType.FunctionDefn)) := by
  have hv : (TextureType.AddTypeDeclaration sampleHash (TextureType.new 590305913)
      sampleStatement sampleStatementRef 0).map
        (fun (r : Bool × TextureType × ComputeProcessor) => (r.1, r.2.2.order))
      = some (true, [3, 0, 1, 2]) := by decide
  cases h : TextureType.AddTypeDeclaration sampleHash (TextureType.new 590305913)
      sampleStatement sampleStatementRef 0 with
  | none => rw [h] at hv; cases hv
  | some r =>
    obtain ⟨b, self1, processor1⟩ := r
    rw [h] at hv
    simp only [Option.map_some', Option.some.injEq, Prod.mk.injEq] at hv
    obtain ⟨hb, ho⟩ := hv
    subst hb
    exact ⟨self1, processor1, rfl, ho,
      TextureType.AddTypeDeclaration_anchor_kind sampleHash (TextureType.new 590305913)
        sampleStatement sampleStatementRef 0 self1 processor1 h⟩

/-! ## Walks along `next` and `parent` end within the size of the heap -/

theorem walk_repeats (size : Nat) (w : Nat → Option Nat)
    (hw : ∀ i, i ≤ size → ∃ p, w i = some p ∧ p < size) :
    ∃ i j, i < j ∧ j ≤ size ∧ w i = w j := by
  have hmaps : ∀ i ∈ Finset.range (size + 1), (w i).getD 0 ∈ Finset.range size := by
    intro i hi
    obtain ⟨p, hp, hlt⟩ := hw i (by simpa [Nat.lt_succ_iff] using hi)
    simp [hp, hlt]
  obtain ⟨x, hx, y, hy, hxy, hval⟩ :=
    Finset.exists_ne_map_eq_of_card_lt_of_maps_to (by simp) hmaps
  have hx1 : x ≤ size := by simpa [Nat.lt_succ_iff] using hx
  have hy1 : y ≤ size := by simpa [Nat.lt_succ_iff] using hy
  obtain ⟨p, hp, _⟩ := hw x hx1
  obtain ⟨q, hq, _⟩ := hw y hy1
  have hpq : p = q := by simpa [hp, hq] using hval
  have heq : w x = w y := by rw [hp, hq, hpq]
  rcases Nat.lt_or_gt_of_ne hxy with h | h
  · exact ⟨x, y, h, hy1, heq⟩
  · exact ⟨y, x, h, hx1, heq.symm⟩

theorem nthNext_none (tokens : List cmpToken) (n : Nat) : nthNext tokens n none = none := by
  cases n <;> simp [nthNext, tokenAt]

theorem nthNext_add (tokens : List cmpToken) (b : Nat) :
    ∀ (a : Nat) (p : Option Nat),
      nthNext tokens (a + b) p = nthNext tokens b (nthNext tokens a p) := by
  intro a
  induction a with
  | zero => intro p; simp [nthNext]
  | succ a ih =>
    intro p
    rw [Nat.add_right_comm]
    cases hp : tokenAt tokens p with
    | none => simp [nthNext, hp, nthNext_none]
    | some t => simp only [nthNext, hp]; exact ih t.next

theorem nthNext_periodic (tokens : List cmpToken) (p : Option Nat) (i j : Nat)
    (h : nthNext tokens i p = nthNext tokens j p) (k : Nat) :
    nthNext tokens (i + k) p = nthNext tokens (j + k) p := by
  rw [nthNext_add, nthNext_add, h]

theorem tokenAfter_lt (tokens : List cmpToken) (p : Option Nat) (i : Nat) (t : cmpToken)
    (h : tokenAfter tokens p i = some t) :
    ∃ q, nthNext tokens i p = some q ∧ q < tokens.length := by
  unfold tokenAfter at h
  cases hq : nthNext tokens i p with
  | none => rw [hq] at h; simp [tokenAt] at h
  | some q =>
    rw [hq] at h
    exact ⟨q, rfl, (List.getElem?_eq_some_iff.mp h).1⟩

theorem rangeWithout_short (tokens : List cmpToken) (test : cmpToken → Bool)
    (first last : Option Nat) :
    ∀ n, rangeWithout tokens test first last n →
      ∃ m, m ≤ tokens.length ∧ rangeWithout tokens test first last m := by
  intro n
  induction n using Nat.strong_induction_on with
  | _ n ih =>
    intro h
    by_cases hn : n ≤ tokens.length
    · exact ⟨n, hn, h⟩
    · obtain ⟨i, j, hij, hj, heq⟩ := walk_repeats tokens.length
        (fun k => nthNext tokens k first)
        (fun k hk => by
          obtain ⟨t, ht, _⟩ := h.1 k (by omega)
          exact tokenAfter_lt tokens first k t ht)
      have hper := nthNext_periodic tokens first i j heq
      apply ih (n - (j - i)) (by omega)
      refine ⟨fun k hk => h.1 k (by omega), ?_⟩
      rcases h.2 with h2 | ⟨_, h2⟩
      · left
        have := hper (n - j)
        rw [show j + (n - j) = n by omega, h2] at this
        rw [show n - (j - i) = i + (n - j) by omega]
        exact this
      · right
        refine ⟨by omega, ?_⟩
        have := hper (n - 1 - j)
        rw [show j + (n - 1 - j) = n - 1 by omega, h2] at this
        rw [show n - (j - i) - 1 = i + (n - 1 - j) by omega]
        exact this

theorem TokenIterator.seekLoop_none (tokens : List cmpToken) (test : cmpToken → Bool)
    (last : Option Nat) :
    ∀ (n fuel : Nat) (p : Option Nat), rangeWithout tokens test p last n → n < fuel →
      TokenIterator.seekLoop tokens test last fuel p = some none := by
  intro n
  induction n with
  | zero =>
    intro fuel p h hf
    obtain ⟨fuel, rfl⟩ : ∃ f, fuel = f + 1 := ⟨fuel - 1, by omega⟩
    rcases h.2 with h2 | ⟨h2, _⟩
    · simp only [nthNext] at h2
      subst h2
      rfl
    · omega
  | succ n ih =>
    intro fuel p h hf
    obtain ⟨fuel, rfl⟩ : ∃ f, fuel = f + 1 := ⟨fuel - 1, by omega⟩
    obtain ⟨t, ht, hm⟩ := h.1 0 (by omega)
    rw [tokenAfter_zero] at ht
    cases p with
    | none => simp [tokenAt] at ht
    | some q =>
      have hq : tokens[q]? = some t := ht
      simp only [TokenIterator.seekLoop, hq, hm, Bool.false_eq_true, if_false]
      by_cases hl : some q = last
      · simp [hl]
      · simp only [hl, if_false]
        apply ih fuel t.next _ (by omega)
        refine ⟨fun i hi => ?_, ?_⟩
        · obtain ⟨t1, ht1, hm1⟩ := h.1 (i + 1) (by omega)
          rw [tokenAfter_succ tokens (some q) t i ht] at ht1
          exact ⟨t1, ht1, hm1⟩
        · rcases h.2 with h2 | ⟨_, h2⟩
          · left
            rw [nthNext_succ tokens (some q) t n ht] at h2
            exact h2
          · right
            simp only [Nat.add_sub_cancel] at h2
            cases n with
            | zero => exact absurd h2 hl
            | succ n =>
              rw [nthNext_succ tokens (some q) t n ht] at h2
              exact ⟨by omega, by simpa using h2⟩

/-- C16: `Visit` returns "continue" and leaves the visitor as it was, its
map and its last error, on every node whose kind is not `Statement`,
`FunctionParams` or `Typedef`, and on every node whose token range holds no
token with the hash of one of the six texture keywords, whatever else the
tokens are. -/
theorem FindTextureRefs.Visit_skips_node (cmpHash : String → Nat) (self : FindTextureRefs)
    (processor : ComputeProcessor) (node_ptr : Nat) (node : cmpNode)
    (hnode : processor.nodes[node_ptr]? = some node) :
    ((node.type ≠ cmpNodeType.Statement ∧ node.type ≠ cmpNodeType.FunctionParams ∧
        node.type ≠ cmpNodeType.Typedef) →
      FindTextureRefs.Visit cmpHash self processor node_ptr = some (true, self)) ∧
    (∀ n, rangeWithout processor.tokens (m_TextureMatches cmpHash).Match node.first_token
        node.last_token n →
      FindTextureRefs.Visit cmpHash self processor node_ptr = some (true, self)) := by
  constructor
  · intro h
    simp only [FindTextureRefs.Visit, hnode, h, ne_eq, not_false_eq_true, and_self, if_true]
  · intro n hrange
    obtain ⟨m, hm, hshort⟩ := rangeWithout_short _ _ _ _ n hrange
    have hseek := TokenIterator.seekLoop_none processor.tokens (m_TextureMatches cmpHash).Match
      node.last_token m (processor.tokens.length + 1) node.first_token hshort (by omega)
    simp only [FindTextureRefs.Visit, hnode]
    split
    · rfl
    · simp only [TokenIterator.SeekToken, TokenIterator.ofNode, hseek]

/-- C16, instance: in `void f() { Texture3Dn<short> tex; }` the range `( )`
of the `FunctionParams` node holds two tokens and no texture keyword, and
`Visit` continues with an unchanged visitor. -/
theorem FindTextureRefs.Visit_skips_node_witness :
    sampleStatement.nodes[1]? =
      some ⟨cmpNodeType.FunctionParams, some 0, some 2, some 3⟩ ∧
    rangeWithout sampleStatement.tokens (m_TextureMatches sampleHash).Match (some 2) (some 3)
      2 ∧
    FindTextureRefs.Visit sampleHash FindTextureRefs.new sampleStatement 1 =
      some (true, FindTextureRefs.new) ∧
    (((⟨cmpNodeType.FunctionParams, some 0, some 2, some 3⟩ : cmpNode).type ≠
          cmpNodeType.Statement ∧
        (⟨cmpNodeType.FunctionParams, some 0, some 2, some 3⟩ : cmpNode).type ≠
          cmpNodeType.FunctionParams ∧
        (⟨cmpNodeType.FunctionParams, some 0, some 2, some 3⟩ : cmpNode).type ≠
          cmpNodeType.Typedef) →
      FindTextureRefs.Visit sampleHash FindTextureRefs.new sampleStatement 1 =
        some (true, FindTextureRefs.new)) ∧
    (∀ n, rangeWithout sampleStatement.tokens (m_TextureMatches sampleHash).Match
        (⟨cmpNodeType.FunctionParams, some 0, some 2, some 3⟩ : cmpNode).first_token
        (⟨cmpNodeType.FunctionParams, some 0, some 2, some 3⟩ : cmpNode).last_token n →
      FindTextureRefs.Visit sampleHash FindTextureRefs.new sampleStatement 1 =
        some (true, FindTextureRefs.new)) := by
  have hrange : rangeWithout sampleStatement.tokens (m_TextureMatches sampleHash).Match
      (some 2) (some 3) 2 := by
    refine ⟨fun i hi => ?_, Or.inr ⟨by decide, by decide⟩⟩
    interval_cases i
    · exact ⟨⟨cmpTokenType.LBracket, "(", sampleHash "(", 1, some 1, some 3⟩, by decide,
        by decide⟩
    · exact ⟨⟨cmpTokenType.RBracket, ")", sampleHash ")", 1, some 2, some 4⟩, by decide,
        by decide⟩
  have hthm := FindTextureRefs.Visit_skips_node sampleHash FindTextureRefs.new sampleStatement
    1 ⟨cmpNodeType.FunctionParams, some 0, some 2, some 3⟩ (by decide)
  exact ⟨by decide, hrange, hthm.2 2 hrange, hthm.1, hthm.2⟩

/-! ## The pass with and without the destruction of tokens -/

theorem TextureTransform.Apply.declareDestroying_declare (cmpHash : String → Nat) :
    ∀ (refs_map : TextureRefsMap) (self : TextureTransform) (processor : ComputeProcessor)
      (destroyed : List Nat) (r : Option cmpError) (self1 : TextureTransform)
      (processor1 : ComputeProcessor) (destroyed1 : List Nat),
      TextureTransform.Apply.declareDestroying cmpHash refs_map self processor destroyed =
        some (r, self1, processor1, destroyed1) →
      TextureTransform.Apply.declare cmpHash refs_map self processor =
        some (r, self1, processor1) := by
  intro refs_map
  induction refs_map with
  | nil =>
    intro self processor destroyed r self1 processor1 destroyed1 h
    simp only [TextureTransform.Apply.declareDestroying, Option.some.injEq, Prod.mk.injEq] at h
    obtain ⟨h1, h2, h3, _⟩ := h
    subst h1 h2 h3
    rfl
  | cons entry rest ih =>
    intro self processor destroyed r self1 processor1 destroyed1 h
    obtain ⟨key, refs⟩ := entry
    simp only [TextureTransform.Apply.declareDestroying] at h
    simp only [TextureTransform.Apply.declare]
    cases hf : FindFirstTextureRef refs with
    | none => simp [hf] at h
    | some first_ref =>
      simp only [hf] at h ⊢
      by_cases hidx : self.m_UniqueTypeIndex ≥ INT_MAX
      · simp [hidx] at h
      · simp only [hidx, if_false] at h ⊢
        split at h
        · cases h
        · cases hadd : TextureType.AddTypeDeclaration cmpHash (TextureType.new key) processor
              first_ref self.m_UniqueTypeIndex with
          | none => simp [hadd] at h
          | some res =>
            obtain ⟨ok, texture_type, processor2⟩ := res
            simp only [hadd] at h ⊢
            cases ok with
            | false =>
              simp only [] at h ⊢
              split at h
              · cases h
              · simp only [Option.some.injEq, Prod.mk.injEq] at h
                obtain ⟨h1, h2, h3, _⟩ := h
                subst h1 h2 h3
                rfl
            | true =>
              simp only [] at h ⊢
              split at h
              · cases h
              · split at h
                · cases h
                · exact ih _ _ _ _ _ _ _ h

theorem TextureTransform.Apply.replaceRefsChecked_replaceRefs (destroyed : List Nat) :
    ∀ (refs : TextureRefs) (texture_type : TextureType) (tokens : List cmpToken)
      (x : Option cmpError × TextureType × List cmpToken),
      TextureTransform.Apply.replaceRefsChecked destroyed refs texture_type tokens = some x →
      TextureTransform.Apply.replaceRefs refs texture_type tokens = some x := by
  intro refs
  induction refs with
  | nil =>
    intro texture_type tokens x h
    simpa [TextureTransform.Apply.replaceRefsChecked, TextureTransform.Apply.replaceRefs] using h
  | cons ref rest ih =>
    intro texture_type tokens x h
    simp only [TextureTransform.Apply.replaceRefsChecked] at h
    simp only [TextureTransform.Apply.replaceRefs]
    split at h
    · cases h
    · cases hr : TextureType.ReplaceTypeInstance texture_type tokens ref with
      | none => simp [hr] at h
      | some res =>
        obtain ⟨ok, texture_type1, tokens1⟩ := res
        simp only [hr] at h ⊢
        cases ok with
        | false => simpa using h
        | true => exact ih _ _ _ h

theorem TextureTransform.Apply.replaceChecked_replace (refs_map : TextureRefsMap)
    (destroyed : List Nat) :
    ∀ (texture_types : List TextureType) (tokens : List cmpToken)
      (x : Option cmpError × List TextureType × List cmpToken),
      TextureTransform.Apply.replaceChecked refs_map destroyed texture_types tokens = some x →
      TextureTransform.Apply.replace refs_map texture_types tokens = some x := by
  intro texture_types
  induction texture_types with
  | nil =>
    intro tokens x h
    simpa [TextureTransform.Apply.replaceChecked, TextureTransform.Apply.replace] using h
  | cons texture_type rest ih =>
    intro tokens x h
    simp only [TextureTransform.Apply.replaceChecked] at h
    simp only [TextureTransform.Apply.replace]
    cases hfind : TextureRefsMap.find refs_map texture_type.m_TextureRefsKey with
    | none => simp [hfind] at h
    | some refs =>
      simp only [hfind] at h ⊢
      cases hr : TextureTransform.Apply.replaceRefsChecked destroyed refs texture_type tokens with
      | none => simp [hr] at h
      | some res =>
        rw [TextureTransform.Apply.replaceRefsChecked_replaceRefs destroyed refs texture_type
          tokens res hr]
        obtain ⟨e, texture_type1, tokens1⟩ := res
        simp only [hr] at h
        cases e with
        | some e => simpa using h
        | none =>
          simp only [] at h ⊢
          cases hrest : TextureTransform.Apply.replaceChecked refs_map destroyed rest tokens1 with
          | none => simp [hrest] at h
          | some res2 =>
            rw [ih tokens1 res2 hrest]
            simpa [hrest] using h

/-- The pass with the destruction of tokens returns what the pass with
every token kept alive returns, whenever it returns: the destruction only
takes results away. -/
theorem TextureTransform.Apply.destroying_result (cmpHash : String → Nat)
    (self self1 : TextureTransform) (processor processor1 : ComputeProcessor)
    (e : cmpError) (destroyed : List Nat)
    (h : TextureTransform.Apply.destroying cmpHash self processor =
      some (e, self1, processor1, destroyed)) :
    TextureTransform.Apply cmpHash self processor = some (e, self1, processor1) := by
  simp only [TextureTransform.Apply.destroying] at h
  simp only [TextureTransform.Apply]
  cases hv : VisitNodes (fun ftr node => FindTextureRefs.Visit cmpHash ftr processor node)
      processor.order FindTextureRefs.new with
  | none => simp [hv] at h
  | some res =>
    obtain ⟨ok, ftr⟩ := res
    simp only [hv] at h ⊢
    cases ok with
    | false =>
      simp only [Option.some.injEq, Prod.mk.injEq] at h ⊢
      exact ⟨h.1, h.2.1, h.2.2.1⟩
    | true =>
      simp only [] at h ⊢
      by_cases hlen : ftr.m_TextureRefsMap.length = 0
      · simp only [hlen, if_true, Option.some.injEq, Prod.mk.injEq] at h ⊢
        exact ⟨h.1, h.2.1, h.2.2.1⟩
      · simp only [hlen, if_false] at h ⊢
        cases hd : TextureTransform.Apply.declareDestroying cmpHash ftr.m_TextureRefsMap self
            processor [] with
        | none => simp [hd] at h
        | some res =>
          obtain ⟨r, self2, processor2, destroyed2⟩ := res
          rw [TextureTransform.Apply.declareDestroying_declare cmpHash _ _ _ _ _ _ _ _ hd]
          simp only [hd] at h
          cases r with
          | some e2 =>
            simp only [Option.some.injEq, Prod.mk.injEq] at h ⊢
            exact ⟨h.1, h.2.1, h.2.2.1⟩
          | none =>
            simp only [] at h ⊢
            cases hr : TextureTransform.Apply.replaceChecked ftr.m_TextureRefsMap destroyed2
                self2.m_TextureTypes processor2.tokens with
            | none => simp [hr] at h
            | some res2 =>
              rw [TextureTransform.Apply.replaceChecked_replace _ _ _ _ _ hr]
              obtain ⟨r2, texture_types, tokens⟩ := res2
              simp only [hr] at h
              cases r2 with
              | some e3 =>
                simp only [Option.some.injEq, Prod.mk.injEq] at h ⊢
                exact ⟨h.1, h.2.1, h.2.2.1⟩
              | none =>
                simp only [Option.some.injEq, Prod.mk.injEq] at h ⊢
                exact ⟨h.1, h.2.1, h.2.2.1⟩

/-- The fuel of the destructor loop is never used up: with the destroyed
tokens all different and in the heap, any fuel that exceeds the number of
tokens not yet destroyed gives the same result as more fuel. -/
theorem TextureType.destructor_fuel (tokens : List cmpToken) :
    ∀ (fuel : Nat) (p : Option Nat) (destroyed : List Nat) (more : Nat),
      destroyed.Nodup → (∀ q ∈ destroyed, q < tokens.length) →
      tokens.length + 1 ≤ fuel + destroyed.length →
      TextureType.destructor tokens (fuel + more) p destroyed =
        TextureType.destructor tokens fuel p destroyed := by
  intro fuel
  induction fuel with
  | zero =>
    intro p destroyed more hnd hlt hfuel
    exfalso
    have hsub : destroyed.toFinset ⊆ Finset.range tokens.length := by
      intro q hq
      exact Finset.mem_range.mpr (hlt q (List.mem_toFinset.mp hq))
    have hcard := Finset.card_le_card hsub
    rw [List.toFinset_card_of_nodup hnd, Finset.card_range] at hcard
    omega
  | succ fuel ih =>
    intro p destroyed more hnd hlt hfuel
    have hadd : fuel + 1 + more = (fuel + more) + 1 := by omega
    rw [hadd]
    cases p with
    | none => simp [TextureType.destructor]
    | some q =>
      simp only [TextureType.destructor]
      by_cases hq : q ∈ destroyed
      · simp [hq]
      · simp only [hq, if_false]
        cases ht : tokens[q]? with
        | none => rfl
        | some t =>
          simp only []
          have hqlt : q < tokens.length := by
            rcases List.getElem?_eq_some_iff.mp ht with ⟨hlen, _⟩
            exact hlen
          apply ih
          · simp only [cmpToken_Destroy]
            exact List.Nodup.append hnd (List.nodup_singleton q)
              (by
                intro a ha hb
                rw [List.mem_singleton] at hb
                subst hb
                exact hq ha)
          · intro a ha
            simp only [cmpToken_Destroy, List.mem_append, List.mem_singleton] at ha
            rcases ha with ha | ha
            · exact hlt a ha
            · subst ha; exact hqlt
          · simp only [cmpToken_Destroy, List.length_append, List.length_singleton]
            omega

/-! ## The error sites of the visitor at the end of the token sequence -/

/-- C3, evaluated: in a text that ends in `void f() { Texture2Dn` the
`Statement` node is eligible and `SeekToken` finds its texture keyword,
which is the last token of the sequence, so the pattern does not follow.
After `++iterator` the cursor is null, `ExpectToken` returns null, and the
error `Expecting '<'` is made from `iterator.token->line`: `Visit` has no
result instead of stopping with an error.  In `void f() { Texture2Dn x; }`,
where a token follows the keyword, `Visit` stops with `Expecting '<'`, cites
the line of that token and records nothing. -/
theorem FindTextureRefs.Visit_keyword_last_token :
    sampleKeywordLast.nodes[1]? = some ⟨cmpNodeType.Statement, some 0, some 5, some 5⟩ ∧
    TokenIterator.SeekToken sampleKeywordLast.tokens
      (TokenIterator.ofNode ⟨cmpNodeType.Statement, some 0, some 5, some 5⟩)
      (m_TextureMatches sampleHash).Match = some (⟨some 5, some 5, some 5⟩, some 5) ∧
    (tokenAt sampleKeywordLast.tokens (some 5)).map (fun t => (t.text, t.next)) =
      some ("Texture2Dn", none) ∧
    (followsPlain sampleHash sampleKeywordLast.tokens false (some 5) = false ∧
      followsQualified sampleHash sampleKeywordLast.tokens false (some 5) = false) ∧
    TokenIterator.advance sampleKeywordLast.tokens ⟨some 5, some 5, some 5⟩ =
      some ⟨some 5, some 5, none⟩ ∧
    TokenIterator.ExpectToken sampleKeywordLast.tokens ⟨some 5, some 5, none⟩
      (MatchTypes.Match ⟨cmpTokenType.LAngle⟩) = none ∧
    FindTextureRefs.fail FindTextureRefs.new sampleKeywordLast ⟨some 5, some 5, none⟩
      "%s(%d): Expecting '<'" = none ∧
    FindTextureRefs.Visit sampleHash FindTextureRefs.new sampleKeywordLast 1 = none ∧
    FindTextureRefs.Visit sampleHash FindTextureRefs.new sampleNoAngle 1 =
      some (false, ⟨[], cmpError.Create "%s(%d): Expecting '<'"
        [cmpArg.str "a.cl", cmpArg.num 2]⟩) := by
  refine ⟨?_, ?_, ?_, ⟨?_, ?_⟩, ?_, ?_, ?_, ?_, ?_⟩ <;> decide

/-- C4, evaluated: in a text that ends in `void f() { Texture1Du<short` the
`>` is missing and no token follows `short`.  After the `++iterator` that
follows the type name the cursor is null, `ExpectToken` returns null, and
the error `Expecting '>'` is made from `iterator.token->line`: `Visit` has
no result instead of stopping with a grammar error.  In
`Texture1Du<short t;`, where a token follows `short`, `Visit` stops with
`Expecting '>'` and cites the line of that token, and for
`Texture2Dn<double> t;` it stops with `Expecting a type name` and cites the
line of `double`. -/
theorem FindTextureRefs.Visit_type_name_last_token :
    sampleTypeLast.nodes[1]? = some ⟨cmpNodeType.Statement, some 0, some 5, some 7⟩ ∧
    TokenIterator.SeekToken sampleTypeLast.tokens
      (TokenIterator.ofNode ⟨cmpNodeType.Statement, some 0, some 5, some 7⟩)
      (m_TextureMatches sampleHash).Match = some (⟨some 5, some 7, some 5⟩, some 5) ∧
    (tokenAt sampleTypeLast.tokens (some 7)).map (fun t => (t.text, t.next)) =
      some ("short", none) ∧
    TokenIterator.advance sampleTypeLast.tokens ⟨some 5, some 7, some 7⟩ =
      some ⟨some 5, some 7, none⟩ ∧
    TokenIterator.ExpectToken sampleTypeLast.tokens ⟨some 5, some 7, none⟩
      (MatchTypes.Match ⟨cmpTokenType.RAngle⟩) = none ∧
    FindTextureRefs.fail FindTextureRefs.new sampleTypeLast ⟨some 5, some 7, none⟩
      "%s(%d): Expecting '>'" = none ∧
    FindTextureRefs.Visit sampleHash FindTextureRefs.new sampleTypeLast 1 = none ∧
    ((tokenAfter sampleMalformed.tokens (some 11) 3).map (fun t => (t.text, t.line)) =
        some ("t", 6) ∧
      FindTextureRefs.Visit sampleHash FindTextureRefs.new sampleMalformed 2 =
        some (false, ⟨[], cmpError.Create "%s(%d): Expecting '>'"
          [cmpArg.str "a.cl", cmpArg.num 6]⟩)) ∧
    ((tokenAfter sampleMalformed.tokens (some 5) 2).map (fun t => (t.text, t.line)) =
        some ("double", 3) ∧
      FindTextureRefs.Visit sampleHash FindTextureRefs.new sampleMalformed 1 =
        some (false, ⟨[], cmpError.Create "%s(%d): Expecting a type name"
          [cmpArg.str "a.cl", cmpArg.num 3]⟩)) := by
  refine ⟨?_, ?_, ?_, ?_, ?_, ?_, ?_, ⟨?_, ?_⟩, ⟨?_, ?_⟩⟩ <;> decide

/-! ## The pass with the destruction of the tokens of the local texture type -/

/-- C13, evaluated: in the text `Texture3Dn<short> tex;` followed by
`typedef Texture2Dn<float> Foo;`, both at file scope, the group of the
typedef is processed first and declared, and at the end of that iteration
the destructor of the local `texture_type` destroys the declaration and the
tokens of the typedef, which are linked after it.  The group of the
statement then fails with the error without line, and `Apply` returns it.
The tokens of the occurrence in the typedef, from the keyword to `>`, are
destroyed, and the last token of the statement points at a destroyed
token; the tokens of the occurrence in the statement are not destroyed. -/
theorem TextureTransform.Apply_no_location_after_destruction :
    (VisitNodes
      (fun ftr node => FindTextureRefs.Visit sampleHash ftr sampleStatementThenTypedef node)
      sampleStatementThenTypedef.order FindTextureRefs.new).map
      (fun v => (v.1, v.2.m_TextureRefsMap)) =
      some (true, [(546437992, [⟨some 1, 2, some 7, some 9, 1, some 10, none⟩]),
        (590305913, [⟨some 0, 1, some 0, some 2, 1, some 3, none⟩])]) ∧
    (TextureTransform.Apply.destroying sampleHash TextureTransform.new
      sampleStatementThenTypedef).map
      (fun r => (r.1, r.2.1.m_TextureTypes.map (fun t => t.m_Name), r.2.2.2)) =
      some (cmpError.Create "Failed to find good location for type declaration" [],
        [some "__TextureTypeName_0__"],
        [13, 14, 15, 16, 17, 18, 19, 20, 21, 22, 23, 6, 7, 8, 9, 10, 11, 12,
          24, 25, 26, 27, 28, 29, 30, 31, 32, 33, 34]) ∧
    (TextureTransform.Apply.destroying sampleHash TextureTransform.new
      sampleStatementThenTypedef).map
      (fun r => ([7, 8, 9, 10].map (fun p => decide (p ∈ r.2.2.2)),
        [0, 1, 2, 3].map (fun p => decide (p ∈ r.2.2.2)),
        (tokenAt r.2.2.1.tokens (some 5)).map (fun t => t.next))) =
      some ([true, true, true, true], [false, false, false, false], some (some 13)) := by
  refine ⟨?_, ?_, ?_⟩ <;> decide

/-- C15, evaluated: in `typedef Texture2Dn<float> Foo;` the declaration
loop generates `__TextureTypeName_0__`, and at the end of its iteration the
destructor of the local `texture_type` destroys the declaration and every
token of the input; the splice loop then dereferences the keyword token of
the occurrence, which is destroyed, so `Apply` has no result and the
occurrence is not rewritten.  In a later invocation on the same object the
numbering goes on: after an invocation on `Texture3Dn<short> tex;` at file
scope, which returns the error without line and leaves the counter at 1,
the declaration loop of the next invocation, on
`typedef Texture2Dn<float> Foo;`, generates `__TextureTypeName_1__` for the
first group, and the splice loop has no result there either. -/
theorem TextureTransform.Apply_splice_reads_destroyed :
    (VisitNodes (fun ftr node => FindTextureRefs.Visit sampleHash ftr sampleTypedef node)
      sampleTypedef.order FindTextureRefs.new).map (fun v => (v.1, v.2.m_TextureRefsMap)) =
      some (true, [(546437992, [sampleTypedefRef])]) ∧
    (TextureTransform.Apply.declareDestroying sampleHash [(546437992, [sampleTypedefRef])]
      TextureTransform.new sampleTypedef []).map
      (fun r => (r.1, r.2.1.m_TextureTypes.map (fun t => t.m_Name), r.2.2.2)) =
      some (none, [some "__TextureTypeName_0__"],
        [7, 8, 9, 10, 11, 12, 13, 14, 15, 16, 17, 0, 1, 2, 3, 4, 5, 6]) ∧
    (TextureTransform.Apply.declareDestroying sampleHash [(546437992, [sampleTypedefRef])]
      TextureTransform.new sampleTypedef []).map
      (fun r =>
        (TextureType.ReplaceTypeInstance.derefs r.2.2.1.tokens sampleTypedefRef,
          pointsAtDestroyed r.2.2.2
            (TextureType.ReplaceTypeInstance.derefs r.2.2.1.tokens sampleTypedefRef))) =
      some ([some 1, some 0, some 4, some 5], true) ∧
    TextureTransform.Apply.destroying sampleHash TextureTransform.new sampleTypedef = none ∧
    (TextureTransform.Apply.destroying sampleHash TextureTransform.new
      sampleFileScopeStatement).map (fun r => (r.1, r.2.1)) =
      some (cmpError.Create "Failed to find good location for type declaration" [],
        ⟨1, []⟩) ∧
    (TextureTransform.Apply.declareDestroying sampleHash [(546437992, [sampleTypedefRef])]
      ⟨1, []⟩ sampleTypedef []).map
      (fun r => (r.1, r.2.1.m_UniqueTypeIndex,
        r.2.1.m_TextureTypes.map (fun t => t.m_Name))) =
      some (none, 2, [some "__TextureTypeName_1__"]) ∧
    TextureTransform.Apply.destroying sampleHash ⟨1, []⟩ sampleTypedef = none := by
  refine ⟨?_, ?_, ?_, ?_, ?_, ?_, ?_⟩ <;> decide

end ComputeBridge
